import Mathlib

/-!
Verification development for the `dicom-ai-viewer` backend.

This file gives a shallow embedding, in Lean 4, of the two core components of
`src/backend/services/dicom_service.py`:

* the Hierarchy Resolver (`save_uploaded_file`, `_parse_folder_structure`,
  `_index_dicom_file`, and the accessor methods), and
* the Pixel Rendering Pipeline (`get_slice_image`).

Python dictionaries keyed by strings are embedded as insertion-ordered
association lists; optional DICOM header attributes (`getattr` probing) are
embedded as `Option` fields; exceptions caught by the `try/except` blocks are
embedded as explicit `Option`/branching control flow.  Pixel samples and
floating-point arithmetic are embedded over `ℚ` (every concrete value used in
the claims below is exactly representable in binary64, so the rational model
agrees with the Python float computation at those inputs).
-/

attribute [local semireducible] Rat.add Rat.sub Rat.mul Rat.inv Rat.ofScientific

namespace DicomAI

/-- Ordered association list standing for a Python `dict` with string keys
(Python dicts preserve insertion order; assigning to an existing key keeps its
position, assigning a fresh key appends).  `mapGet` is `m[k]`-as-query:
the value at the first (and, as built here, only) occurrence of the key. -/
def mapGet {α : Type} : List (String × α) → String → Option α
  | [], _ => none
  | p :: m, k => if p.1 = k then some p.2 else mapGet m k

/-- `m[k] = v` for a Python dict: replace in place if the key exists,
otherwise append. -/
def mapSet {α : Type} : List (String × α) → String → α → List (String × α)
  | [], k, v => [(k, v)]
  | p :: m, k, v => if p.1 = k then (k, v) :: m else p :: mapSet m k v

/-- `relative_path.replace("\\", "/")`: replacing a single-character pattern
by a single character is exactly a character map. -/
def normSep (s : String) : String :=
  String.mk (s.data.map (fun c => if c = '\\' then '/' else c))

/-- Helper for `splitSlash`: accumulate the current segment (reversed) while
scanning the characters. -/
def splitOnAuxC (sep : Char) : List Char → List Char → List String
  | [], acc => [String.mk acc.reverse]
  | c :: rest, acc =>
    if c = sep then String.mk acc.reverse :: splitOnAuxC sep rest []
    else splitOnAuxC sep rest (c :: acc)

/-- Python's `str.split("/")` with a one-character separator: the empty
string yields `[""]`, consecutive separators yield empty segments. -/
def splitSlash (s : String) : List String := splitOnAuxC '/' s.data []

/-- Result of `_parse_folder_structure`: a dict with exactly the keys
`patient_folder`, `body_location`, `subfolder` (always all three present). -/
structure FolderInfo where
  patient_folder : String
  body_location : String
  subfolder : String
deriving DecidableEq, Repr

/-- Core of `_parse_folder_structure`, acting on the already-split segment
list.  Mirrors the Python `if len(parts) >= 3 / == 2 / else` chain, with
`parts[1:-1]` rendered as `(parts.drop 1).dropLast`. -/
def parseParts (parts : List String) : FolderInfo :=
  if parts.length ≥ 3 then
    { patient_folder := parts.headI
      body_location := parts.getD 1 ""
      subfolder :=
        if parts.length > 3 then String.intercalate "/" ((parts.drop 1).dropLast)
        else parts.getD 1 "" }
  else if parts.length = 2 then
    { patient_folder := parts.headI
      body_location := parts.headI
      subfolder := parts.headI }
  else
    { patient_folder := "Unknown"
      body_location := "Unknown"
      subfolder := "" }

/-- `_parse_folder_structure`: normalize `\` to `/`, split, classify. -/
def parse_folder_structure (relative_path : String) : FolderInfo :=
  parseParts (splitSlash (normSep relative_path))

/-- The header attributes of a successfully `dcmread` dataset that the
resolver probes with `getattr`; `none` means the attribute is absent. -/
structure Dataset where
  patientName : Option String
  patientID : Option String
  studyInstanceUID : Option String
  seriesInstanceUID : Option String
  studyDate : Option String
  studyDescription : Option String
  modality : Option String
  seriesNumber : Option Int
  seriesDescription : Option String
  bodyPartExamined : Option String
  instanceNumber : Option Int
  sliceLocation : Option ℚ
  rows : Option Nat
  columns : Option Nat
deriving DecidableEq, Repr

/-- A dataset with every probed attribute absent. -/
def emptyDataset : Dataset :=
  { patientName := none, patientID := none, studyInstanceUID := none
    seriesInstanceUID := none, studyDate := none, studyDescription := none
    modality := none, seriesNumber := none, seriesDescription := none
    bodyPartExamined := none, instanceNumber := none, sliceLocation := none
    rows := none, columns := none }

/-- A `self.studies[...]` record.  The failure branch of `_index_dicom_file`
creates study dicts without the `patient_id`, `study_date` and `modality`
keys; those fields are `Option` with `none` standing for an absent key. -/
structure Study where
  id : String
  patient_name : String
  patient_id : Option String
  study_date : Option String
  study_description : String
  modality : Option String
  series_ids : List String
deriving DecidableEq, Repr

/-- A `self.series[...]` record; `series_number` and `body_part` keys are
absent (`none`) in records created by the failure branch. -/
structure Series where
  id : String
  study_id : String
  series_number : Option Int
  series_description : String
  body_part : Option String
  slice_ids : List String
deriving DecidableEq, Repr

/-- A `self.slices[...]` record; `slice_location`, `rows`, `columns` keys are
absent (`none`) in records created by the failure branch, and `error` is
present (`some`) only there. -/
structure SliceRec where
  id : String
  series_id : String
  study_id : String
  instance_number : Int
  slice_location : Option ℚ
  filename : String
  file_path : String
  rows : Option Nat
  columns : Option Nat
  error : Option String
deriving DecidableEq, Repr

/-- The in-memory index held by `DicomService`. -/
structure DicomState where
  studies : List (String × Study)
  series : List (String × Series)
  slices : List (String × SliceRec)
deriving DecidableEq, Repr

def emptyState : DicomState := { studies := [], series := [], slices := [] }

/-- `self.studies = m` (all other state untouched). -/
def withStudies (st : DicomState) (m : List (String × Study)) : DicomState :=
  { st with studies := m }

/-- `self.series = m` (all other state untouched). -/
def withSeries (st : DicomState) (m : List (String × Series)) : DicomState :=
  { st with series := m }

/-- `self.slices = m` (all other state untouched). -/
def withSlices (st : DicomState) (m : List (String × SliceRec)) : DicomState :=
  { st with slices := m }

/-- Python truthiness-based string defaulting: `a or b` for strings. -/
def orS (a b : String) : String := if a = "" then b else a

/-- `str(uid) if uid else fallback`: an absent or empty UID falls through to
the synthesized fallback (pydicom UIDs are strings, `""` is falsy). -/
def uidOr (u : Option String) (fallback : String) : String :=
  match u with
  | some s => if s = "" then fallback else s
  | none => fallback

/-- The `slice_ids` list of a series, `[]` when the series is absent (every
use site below has just ensured the series exists, mirroring Python's
guaranteed-present `self.series[series_uid]["slice_ids"]` access). -/
def seriesSliceIds (st : DicomState) (uid : String) : List String :=
  match mapGet st.series uid with
  | some s => s.slice_ids
  | none => []

/-- The sort key `(instance_number, slice_location)` used by the re-sort in
`_index_dicom_file`; `none` when the lookup `self.slices[sid]` or the key
access `["slice_location"]` would raise (failure-branch records have no
`slice_location` key). -/
def sliceKey (slices : List (String × SliceRec)) (sid : String) :
    Option (Int × ℚ) :=
  match mapGet slices sid with
  | none => none
  | some r =>
    match r.slice_location with
    | none => none
    | some sl => some (r.instance_number, sl)

/-- Lexicographic `≤` on `(instance_number, slice_location)` tuples, the
order Python's tuple comparison induces for `list.sort(key=...)`. -/
def keyLe (a b : Int × ℚ) : Bool :=
  decide (a.1 < b.1) || (a.1 == b.1 && decide (a.2 ≤ b.2))

/-- Decorate each slice id with its sort key.  CPython's `list.sort(key=...)`
computes every key before any reordering, so a missing key (`KeyError`)
leaves the list in its pre-sort order; `none` models that raised state. -/
def keyedList (slices : List (String × SliceRec)) :
    List String → Option (List (String × (Int × ℚ)))
  | [] => some []
  | sid :: rest =>
    match sliceKey slices sid, keyedList slices rest with
    | some k, some ps => some ((sid, k) :: ps)
    | _, _ => none

/-- The order relation on decorated `(sid, key)` pairs. -/
def keyRel (a b : String × (Int × ℚ)) : Prop := keyLe a.2 b.2 = true

instance : DecidableRel keyRel := fun _ _ => instDecidableEqBool _ _

instance : IsTotal (String × (Int × ℚ)) keyRel where
  total a b := by
    simp only [keyRel, keyLe, Bool.or_eq_true, Bool.and_eq_true, decide_eq_true_eq,
      beq_iff_eq]
    rcases lt_trichotomy a.2.1 b.2.1 with h | h | h
    · exact Or.inl (Or.inl h)
    · rcases le_total a.2.2 b.2.2 with h2 | h2
      · exact Or.inl (Or.inr ⟨h, h2⟩)
      · exact Or.inr (Or.inr ⟨h.symm, h2⟩)
    · exact Or.inr (Or.inl h)

instance : IsTrans (String × (Int × ℚ)) keyRel where
  trans a b c := by
    simp only [keyRel, keyLe, Bool.or_eq_true, Bool.and_eq_true, decide_eq_true_eq,
      beq_iff_eq]
    rintro (h | ⟨h1, h2⟩) (h' | ⟨h1', h2'⟩)
    · exact Or.inl (h.trans h')
    · exact Or.inl (h1' ▸ h)
    · exact Or.inl (h1 ▸ h')
    · exact Or.inr ⟨h1.trans h1', h2.trans h2'⟩

/-- `slice_ids.sort(key=lambda sid: (instance_number, slice_location))`.
Python's sort is stable, and a stable sort's output is uniquely determined
by the key order and the input order, so the stable
`List.insertionSort` on the decorated list is the exact model; `none` when a
key computation raises. -/
def sortSliceIds (slices : List (String × SliceRec)) (ids : List String) :
    Option (List String) :=
  match keyedList slices ids with
  | none => none
  | some ps => some ((List.insertionSort keyRel ps).map (fun p => p.1))

/-- The study record built on first creation in the success branch
(lines 95–103 of the source). -/
def mkStudySuccess (ds : Dataset) (fi : FolderInfo) (study_uid : String) :
    Study :=
  let patient_name := orS ((ds.patientName).getD "") fi.patient_folder
  { id := study_uid
    patient_name := patient_name
    patient_id := some ((ds.patientID).getD fi.patient_folder)
    study_date := some ((ds.studyDate).getD "Unknown")
    study_description :=
      orS ((ds.studyDescription).getD "") ("Patient: " ++ patient_name)
    modality := some ((ds.modality).getD "MR")
    series_ids := [] }

/-- The series record built on first creation in the success branch
(lines 110–118 of the source). -/
def mkSeriesSuccess (ds : Dataset) (fi : FolderInfo)
    (study_uid series_uid : String) : Series :=
  { id := series_uid
    study_id := study_uid
    series_number := some ((ds.seriesNumber).getD 1)
    series_description :=
      orS ((ds.seriesDescription).getD "") (orS fi.body_location "Series")
    body_part := some (orS ((ds.bodyPartExamined).getD fi.body_location)
      fi.body_location)
    slice_ids := [] }

/-- `if study_uid not in self.studies: self.studies[study_uid] = rec` — the
shape shared by the `try` body (lines 94–103) and the `except` branch
(lines 157–163); only the record differs. -/
def ensureStudy (st : DicomState) (rec : Study) (study_uid : String) :
    DicomState :=
  match mapGet st.studies study_uid with
  | some _ => st
  | none => withStudies st (mapSet st.studies study_uid rec)

/-- `if series_uid not in self.series:` create the series record and (inside
the same `if`) append the series id to the owning study's `series_ids` when
absent — the shape shared by lines 109–120 and lines 165–173. -/
def ensureSeries (st : DicomState) (rec : Series)
    (study_uid series_uid : String) : DicomState :=
  match mapGet st.series series_uid with
  | some _ => st
  | none =>
    let stA := withSeries st (mapSet st.series series_uid rec)
    match mapGet stA.studies study_uid with
    | none => stA  -- unreachable at call sites: the study was just ensured
    | some study =>
      if series_uid ∈ study.series_ids then stA
      else
        withStudies stA
          (mapSet stA.studies study_uid
            { study with series_ids := study.series_ids ++ [series_uid] })

/-- The minimal study record of the `except` branch (lines 158–163). -/
def mkStudyFailure (fi : FolderInfo) (study_uid series_uid : String) : Study :=
  { id := study_uid
    patient_name := fi.patient_folder
    patient_id := none
    study_date := none
    study_description := "Uploaded Study"
    modality := none
    series_ids := [series_uid] }

/-- The minimal series record of the `except` branch (lines 166–171). -/
def mkSeriesFailure (fi : FolderInfo) (study_uid series_uid : String) : Series :=
  { id := series_uid
    study_id := study_uid
    series_number := none
    series_description := fi.body_location
    body_part := none
    slice_ids := [] }

/-- The minimal slice record of the `except` branch (lines 175–183): no
`slice_location`, `rows` or `columns` key, an `error` string, and
`instance_number = len(slice_ids) + 1` read before the append. -/
def failRec (st2 : DicomState)
    (slice_id filename file_path errMsg study_uid series_uid : String) :
    SliceRec :=
  { id := slice_id
    series_id := series_uid
    study_id := study_uid
    instance_number := ((seriesSliceIds st2 series_uid).length : Int) + 1
    slice_location := none
    filename := filename
    file_path := file_path
    rows := none
    columns := none
    error := some errMsg }

/-- Lines 175–186: store the minimal slice record, then append it to the
series membership WITHOUT re-sorting. -/
def failureInsert (st2 : DicomState)
    (slice_id filename file_path errMsg : String)
    (study_uid series_uid : String) : DicomState :=
  let slrec := failRec st2 slice_id filename file_path errMsg study_uid series_uid
  let st3 := withSlices st2 (mapSet st2.slices slice_id slrec)
  if slice_id ∈ seriesSliceIds st3 series_uid then st3
  else
    match mapGet st3.series series_uid with
    | none => st3  -- unreachable: the series was ensured just above
    | some s =>
      withSeries st3
        (mapSet st3.series series_uid
          { s with slice_ids := s.slice_ids ++ [slice_id] })

/-- The `except` branch of `_index_dicom_file` (lines 151–186): minimal
study/series records from path-derived identity only, then the minimal slice
insert.  The `folder_info.get(k, slice_id)` defaults in the source are dead:
`_parse_folder_structure` always supplies all three keys, so the synthesized
ids are the bare prefix plus the (possibly empty) path component. -/
def indexFailure (st : DicomState) (slice_id filename file_path errMsg : String)
    (fi : FolderInfo) : DicomState :=
  let study_uid := "study_" ++ fi.patient_folder
  let series_uid := "series_" ++ fi.subfolder
  failureInsert
    (ensureSeries
      (ensureStudy st (mkStudyFailure fi study_uid series_uid) study_uid)
      (mkSeriesFailure fi study_uid series_uid) study_uid series_uid)
    slice_id filename file_path errMsg study_uid series_uid

/-- The slice record of the `try` body (lines 122–139): `instance_number`
from the header, else `len(slice_ids) + 1` read BEFORE the append;
`slice_location` defaults to `0.0` when absent or falsy (the only falsy
rational is `0`, so `Option.getD 0` is exact). -/
def succRec (st2 : DicomState) (ds : Dataset)
    (slice_id filename file_path study_uid series_uid : String) : SliceRec :=
  { id := slice_id
    series_id := series_uid
    study_id := study_uid
    instance_number :=
      match ds.instanceNumber with
      | some k => k
      | none => ((seriesSliceIds st2 series_uid).length : Int) + 1
    slice_location := some ((ds.sliceLocation).getD 0)
    filename := filename
    file_path := file_path
    rows := some ((ds.rows).getD 0)
    columns := some ((ds.columns).getD 0)
    error := none }

/-- Lines 122–149: extract the slice info, store the record, and (when the
slice id is new to the series) append it and re-sort the membership by
`(instance_number, slice_location)`.  If the re-sort raises (a slice of the
series has no `slice_location` key), control transfers to the `except`
branch with every mutation made so far kept — including the slice already
appended to the series list, since CPython's keyed sort computes all keys
before reordering and so raises before moving anything. -/
def successInsert (st2 : DicomState) (ds : Dataset)
    (slice_id filename file_path : String) (fi : FolderInfo)
    (study_uid series_uid : String) : DicomState :=
  let slrec := succRec st2 ds slice_id filename file_path study_uid series_uid
  let st3 := withSlices st2 (mapSet st2.slices slice_id slrec)
  if slice_id ∈ seriesSliceIds st3 series_uid then st3
  else
    match mapGet st3.series series_uid with
    | none => st3  -- unreachable: the series was ensured just above
    | some s =>
      let appended := s.slice_ids ++ [slice_id]
      let st4 :=
        withSeries st3
          (mapSet st3.series series_uid { s with slice_ids := appended })
      match sortSliceIds st4.slices appended with
      | some sortedIds =>
        withSeries st4
          (mapSet st4.series series_uid { s with slice_ids := sortedIds })
      | none =>
        indexFailure st4 slice_id filename file_path
          "KeyError: slice_location" fi

/-- Lines 94–120 of the `try` body: ensure the study and series records. -/
def ensuredSuccess (st : DicomState) (ds : Dataset) (fi : FolderInfo)
    (study_uid series_uid : String) : DicomState :=
  ensureSeries (ensureStudy st (mkStudySuccess ds fi study_uid) study_uid)
    (mkSeriesSuccess ds fi study_uid series_uid) study_uid series_uid

/-- The `try` body of `_index_dicom_file` after a successful `dcmread`
(lines 84–149): resolve identities, ensure the study and series records,
insert the slice. -/
def indexSuccess (st : DicomState) (ds : Dataset)
    (slice_id filename file_path : String) (fi : FolderInfo) : DicomState :=
  let study_uid := uidOr ds.studyInstanceUID ("study_" ++ fi.patient_folder)
  let series_uid := uidOr ds.seriesInstanceUID ("series_" ++ fi.subfolder)
  successInsert (ensuredSuccess st ds fi study_uid series_uid)
    ds slice_id filename file_path fi study_uid series_uid

/-- `_index_dicom_file`: `parse = none` models `dcmread` raising. -/
def indexDicomFile (st : DicomState) (parse : Option Dataset)
    (slice_id filename file_path : String) (fi : FolderInfo)
    (errMsg : String) : DicomState :=
  match parse with
  | some ds => indexSuccess st ds slice_id filename file_path fi
  | none => indexFailure st slice_id filename file_path errMsg fi

/-- `save_uploaded_file`: derive folder info from `relative_path or filename`
(empty/absent path falls back to the filename), store under
`{slice_id}.dcm`, index, return the slice id. -/
def saveUploadedFile (st : DicomState) (parse : Option Dataset)
    (slice_id filename : String) (relative_path : Option String)
    (errMsg : String) : DicomState × String :=
  let fi := parse_folder_structure (orS ((relative_path).getD "") filename)
  (indexDicomFile st parse slice_id filename (slice_id ++ ".dcm") fi errMsg,
    slice_id)

/-- `get_studies`. -/
def get_studies (st : DicomState) : List Study := st.studies.map (fun p => p.2)

/-- `get_series_for_study`. -/
def get_series_for_study (st : DicomState) (study_id : String) : List Series :=
  match mapGet st.studies study_id with
  | none => []
  | some study => study.series_ids.filterMap (fun sid => mapGet st.series sid)

/-- `get_slices_for_series`. -/
def get_slices_for_series (st : DicomState) (series_id : String) :
    List SliceRec :=
  match mapGet st.series series_id with
  | none => []
  | some s => s.slice_ids.filterMap (fun sid => mapGet st.slices sid)

/-! ## Pixel Rendering Pipeline (`get_slice_image`) -/

/-- The attributes of a dataset that `get_slice_image` probes.  `pixelData =
none` models an absent `PixelData` attribute; `pixelDecodeFails = true`
models `ds.pixel_array` raising.  Samples are embedded over `ℚ`. -/
structure PixelFile where
  pixelData : Option (List (List ℚ))
  pixelDecodeFails : Bool
  photometric : Option String
  rescaleSlope : Option ℚ
  rescaleIntercept : Option ℚ
  windowCenter : Option ℚ
  windowWidth : Option ℚ
deriving DecidableEq, Repr

/-- A `PixelFile` with every optional attribute absent. -/
def basePixelFile (g : List (List ℚ)) : PixelFile :=
  { pixelData := some g, pixelDecodeFails := false, photometric := none
    rescaleSlope := none, rescaleIntercept := none, windowCenter := none
    windowWidth := none }

/-- A file on disk: either `dcmread` raises on it, or it yields a dataset. -/
inductive DiskFile
  | unreadable
  | readable (f : PixelFile)
deriving DecidableEq, Repr

/-- The durable byte store at render time: path to file, absent = the
`os.path.exists` check fails. -/
def Disk : Type := List (String × DiskFile)

/-- Flatten a 2-D sample grid (numpy reductions see all samples). -/
def flatten2 (g : List (List ℚ)) : List ℚ := g.flatten

/-- Binary minimum on `ℚ`, written out so that it reduces inside the
kernel. -/
def qmin (a b : ℚ) : ℚ := if a ≤ b then a else b

/-- Binary maximum on `ℚ`, written out so that it reduces inside the
kernel. -/
def qmax (a b : ℚ) : ℚ := if a ≤ b then b else a

/-- `arr.min()`: `none` when the array is empty (numpy raises there). -/
def listMin : List ℚ → Option ℚ
  | [] => none
  | x :: xs => some (xs.foldl qmin x)

/-- `arr.max()`: `none` when the array is empty (numpy raises there). -/
def listMax : List ℚ → Option ℚ
  | [] => none
  | x :: xs => some (xs.foldl qmax x)

/-- Elementwise map over a 2-D grid. -/
def gridMap (f : ℚ → ℚ) (g : List (List ℚ)) : List (List ℚ) :=
  g.map (fun row => row.map f)

/-- `np.clip(v, lo, hi) = minimum(hi, maximum(v, lo))`. -/
def clip (lo hi v : ℚ) : ℚ := qmin hi (qmax v lo)

/-- `astype(np.uint8)` on the normalized values: C truncation toward zero;
all values produced by the pipeline lie in `[0, 255]`, where truncation is
`floor`, and the result is reduced mod `2^8`. -/
def toU8 (q : ℚ) : ℕ := q.floor.toNat % 256

/-- The windowing dispatch of `get_slice_image` (lines 303–327): explicit
center AND width clip; otherwise header center AND width (first value of a
multi-valued element, embedded here as the single `Option` value) clip;
otherwise no clipping. -/
def applyWindow (wc ww : Option ℚ) (f : PixelFile) (g : List (List ℚ)) :
    List (List ℚ) :=
  match wc, ww with
  | some c, some w => gridMap (clip (c - w / 2) (c + w / 2)) g
  | _, _ =>
    match f.windowCenter, f.windowWidth with
    | some c, some w => gridMap (clip (c - w / 2) (c + w / 2)) g
    | _, _ => g

/-- Lines 292–295: MONOCHROME1 inversion `value' = max(all values) - value`;
`none` when `.max()` raises on an empty array (caught by the outer
`except`). -/
def invStage (f : PixelFile) (g0 : List (List ℚ)) :
    Option (List (List ℚ)) :=
  if (f.photometric).getD "MONOCHROME2" = "MONOCHROME1" then
    match listMax (flatten2 g0) with
    | none => none
    | some m => some (gridMap (fun v => m - v) g0)
  else some g0

/-- Lines 297–300: the linear rescale `value * slope + intercept`, slope and
intercept defaulting to 1 and 0 when absent. -/
def rescaleStage (f : PixelFile) (g : List (List ℚ)) : List (List ℚ) :=
  gridMap (fun v => v * (f.rescaleSlope).getD 1 + (f.rescaleIntercept).getD 0) g

/-- Lines 329–336: normalize to 0–255 by the post-clip minimum and maximum,
zero-fill when they coincide, quantize to 8 bits; `none` when the numpy
reductions raise on an empty array. -/
def normalizeStage (g3 : List (List ℚ)) : Option (List (List ℕ)) :=
  match listMin (flatten2 g3), listMax (flatten2 g3) with
  | some pmin, some pmax =>
    some ((if pmin < pmax then
        gridMap (fun v => (v - pmin) / (pmax - pmin) * 255) g3
      else gridMap (fun _ => 0) g3).map (fun row => row.map toU8))
  | _, _ => none

/-- The numeric pipeline of `get_slice_image` (lines 289–336) on a decoded
sample grid: MONOCHROME1 inversion, rescale slope/intercept, windowing,
post-clip min/max normalization, 8-bit quantization. -/
def renderPixels (f : PixelFile) (wc ww : Option ℚ) (g0 : List (List ℚ)) :
    Option (List (List ℕ)) :=
  match invStage f g0 with
  | none => none
  | some g1 => normalizeStage (applyWindow wc ww f (rescaleStage f g1))

/-- `get_slice_image` up to (and excluding) container encoding: the value
returned is the 8-bit sample grid handed to the image encoder, or `none`
wherever the Python function returns `None` (unknown slice, falsy or
non-existent backing path, unreadable file, missing pixel payload, failed
pixel decode, or an empty sample array whose numpy reduction raises into the
outer `except`). -/
def getSliceImage (st : DicomState) (disk : Disk) (slice_id : String)
    (wc ww : Option ℚ) : Option (List (List ℕ)) :=
  match mapGet st.slices slice_id with
  | none => none
  | some srec =>
    if srec.file_path = "" then none
    else
      match mapGet disk srec.file_path with
      | none => none
      | some DiskFile.unreadable => none
      | some (DiskFile.readable f) =>
        match f.pixelData with
        | none => none
        | some g0 =>
          if f.pixelDecodeFails then none
          else renderPixels f wc ww g0

/-- The full method call viewed as a state transformer: `get_slice_image`
performs no writes to the index, so the state component is returned as-is. -/
def getSliceImageCall (st : DicomState) (disk : Disk) (slice_id : String)
    (wc ww : Option ℚ) : Option (List (List ℕ)) × DicomState :=
  (getSliceImage st disk slice_id wc ww, st)

/-! ## Observation predicates used by the claims -/

/-- Non-decreasing under `keyLe` (the spec's ordering on
`(instance_number, slice_location)`). -/
def sortedByKey : List (Int × ℚ) → Bool
  | [] => true
  | [_] => true
  | a :: b :: t => keyLe a b && sortedByKey (b :: t)

/-- The key sequence of a series as the spec reads it: `slice_location`
defaults to `0.0` when the record carries none (the spec's Slice model);
ids whose record is missing contribute nothing. -/
def seriesKeysView (st : DicomState) (uid : String) : List (Int × ℚ) :=
  (seriesSliceIds st uid).filterMap (fun sid =>
    (mapGet st.slices sid).map (fun r =>
      (r.instance_number, (r.slice_location).getD 0)))

/-! ## Concrete instances used by counterexamples and witnesses -/

/-- A successfully parsed slice record backed by path `"p"`. -/
def s1Rec : SliceRec :=
  { id := "s1", series_id := "ser", study_id := "stu"
    instance_number := 1, slice_location := some 0, filename := "f"
    file_path := "p", rows := some 2, columns := some 2, error := none }

/-- An index holding one successfully parsed slice `"s1"` backed by path
`"p"`. -/
def oneSliceState : DicomState :=
  { studies := [], series := [], slices := [("s1", s1Rec)] }

/-- A disk carrying a single readable file at path `"p"` with the given
sample grid and no other attributes. -/
def gridDisk (g : List (List ℚ)) : Disk :=
  [("p", DiskFile.readable (basePixelFile g))]

/-- Folder info for the path `"a/b/c.dcm"`. -/
def abFolder : FolderInfo := parse_folder_structure "a/b/c.dcm"

/-- A header carrying only `InstanceNumber = 5` and `SliceLocation = 0`. -/
def instFiveDs : Dataset :=
  { emptyDataset with instanceNumber := some 5, sliceLocation := some 0 }

/-- Resolve a parseable file (instance number 5) into `series_b`. -/
def mixedState1 : DicomState :=
  indexDicomFile emptyState (some instFiveDs) "A" "c.dcm" "A.dcm" abFolder "e"

/-- Then resolve an unparseable file into the same `series_b`. -/
def mixedState2 : DicomState :=
  indexDicomFile mixedState1 none "B" "d.dcm" "B.dcm" abFolder "boom"

/-- Folder info for the 1-segment path `"img1.dcm"` (empty subfolder). -/
def bareFolder : FolderInfo := parse_folder_structure "img1.dcm"

/-- Resolve a parseable file with no embedded identifiers and a 1-segment
path. -/
def bareState1 : DicomState :=
  indexDicomFile emptyState (some emptyDataset) "A" "img1.dcm" "A.dcm"
    bareFolder "e"

/-- A second, unrelated upload with the same shape of path. -/
def bareState2 : DicomState :=
  indexDicomFile bareState1 (some emptyDataset) "B" "img2.dcm" "B.dcm"
    bareFolder "e"

/-- Folder info for the path `"//b.dcm"`: three segments of which the
first two are empty, so every path-derived hint is the empty string. -/
def slashFolder : FolderInfo := parse_folder_structure "//b.dcm"

/-- Resolve a parseable, identifier-free file under `"//b.dcm"`. -/
def slashState : DicomState :=
  indexDicomFile emptyState (some emptyDataset) "A" "//b.dcm" "A.dcm"
    slashFolder "e"

/-- A header whose `PatientID` attribute is present but empty. -/
def emptyIdDs : Dataset := { emptyDataset with patientID := some "" }

/-- Resolve a file whose header carries an empty `PatientID`. -/
def emptyIdState : DicomState :=
  indexDicomFile emptyState (some emptyIdDs) "A" "c.dcm" "A.dcm" abFolder "e"

/-- Folder info for `"PatientA/Brain/img1.dcm"`. -/
def brainFolder : FolderInfo := parse_folder_structure "PatientA/Brain/img1.dcm"

/-- Resolve a file with no embedded identifiers under
`"PatientA/Brain/img1.dcm"`. -/
def brainState : DicomState :=
  indexDicomFile emptyState (some emptyDataset) "A" "img1.dcm" "A.dcm"
    brainFolder "e"

/-- `s'` is `s` with identity and descriptive fields untouched and zero or
more series ids appended to its membership. -/
def StudyExt (s s' : Study) : Prop :=
  s'.id = s.id ∧ s'.patient_name = s.patient_name ∧
  s'.patient_id = s.patient_id ∧ s'.study_date = s.study_date ∧
  s'.study_description = s.study_description ∧ s'.modality = s.modality ∧
  ∃ t, s'.series_ids = s.series_ids ++ t

/-- `s'` is `s` with identity and descriptive fields untouched and a
membership list that is a permutation of the old one plus zero or more new
slice ids (insertion re-sorts, so the old part may be reordered but never
loses or changes an element). -/
def SeriesExt (s s' : Series) : Prop :=
  s'.id = s.id ∧ s'.study_id = s.study_id ∧
  s'.series_number = s.series_number ∧
  s'.series_description = s.series_description ∧ s'.body_part = s.body_part ∧
  ∃ t, s'.slice_ids.Perm (s.slice_ids ++ t)

/-! ## Association-list lemmas -/

theorem mapGet_mapSet_self {α : Type} (m : List (String × α)) (k : String)
    (v : α) : mapGet (mapSet m k v) k = some v := by
  induction m with
  | nil => simp [mapGet, mapSet]
  | cons p t ih =>
    by_cases hp : p.1 = k
    · simp [mapGet, mapSet, hp]
    · simp [mapGet, mapSet, hp, ih]

theorem mapGet_mapSet_ne {α : Type} (m : List (String × α)) (k k' : String)
    (v : α) (h : k' ≠ k) : mapGet (mapSet m k v) k' = mapGet m k' := by
  induction m with
  | nil =>
    have hkk : ¬ (k = k') := fun e => h e.symm
    simp [mapGet, mapSet, hkk]
  | cons p t ih =>
    by_cases hp : p.1 = k
    · have hkk : ¬ (k = k') := fun e => h e.symm
      have hpk : ¬ (p.1 = k') := fun e => h (e.symm.trans hp)
      simp [mapGet, mapSet, hp, hkk, hpk]
    · have hm : mapSet (p :: t) k v = p :: mapSet t k v := by simp [mapSet, hp]
      rw [hm]
      by_cases hq : p.1 = k' <;> simp [mapGet, hq, ih]

/-! ## Decorated-sort lemmas -/

theorem keyedList_some_map_fst (sl : List (String × SliceRec))
    (ids : List String) (ps : List (String × (Int × ℚ)))
    (h : keyedList sl ids = some ps) : ps.map (fun p => p.1) = ids := by
  induction ids generalizing ps with
  | nil =>
    simp only [keyedList, Option.some_inj] at h
    subst h; rfl
  | cons sid rest ih =>
    simp only [keyedList] at h
    rcases hk : sliceKey sl sid with _ | k <;> simp only [hk] at h
    · exact absurd h (by simp)
    · rcases hr : keyedList sl rest with _ | ps' <;> simp only [hr] at h
      · exact absurd h (by simp)
      · simp only [Option.some_inj] at h
        subst h
        simp [ih ps' hr]

theorem keyedList_some_key (sl : List (String × SliceRec))
    (ids : List String) (ps : List (String × (Int × ℚ)))
    (h : keyedList sl ids = some ps) :
    ∀ p ∈ ps, sliceKey sl p.1 = some p.2 := by
  induction ids generalizing ps with
  | nil =>
    simp only [keyedList, Option.some_inj] at h
    subst h; simp
  | cons sid rest ih =>
    simp only [keyedList] at h
    rcases hk : sliceKey sl sid with _ | k <;> simp only [hk] at h
    · exact absurd h (by simp)
    · rcases hr : keyedList sl rest with _ | ps' <;> simp only [hr] at h
      · exact absurd h (by simp)
      · simp only [Option.some_inj] at h
        subst h
        intro p hp
        rcases List.mem_cons.mp hp with rfl | hp'
        · exact hk
        · exact ih ps' hr p hp'

theorem keyedList_none (sl : List (String × SliceRec)) (ids : List String)
    (h : keyedList sl ids = none) : ∃ sid ∈ ids, sliceKey sl sid = none := by
  induction ids with
  | nil => simp [keyedList] at h
  | cons sid rest ih =>
    simp only [keyedList] at h
    rcases hk : sliceKey sl sid with _ | k <;> simp only [hk] at h
    · exact ⟨sid, List.mem_cons_self _ _, hk⟩
    · rcases hr : keyedList sl rest with _ | ps' <;> simp only [hr] at h
      · obtain ⟨x, hx, hxk⟩ := ih hr
        exact ⟨x, List.mem_cons_of_mem _ hx, hxk⟩
      · simp at h

/-- Non-decreasing adjacent keys follow from pairwise order. -/
theorem sortedByKey_of_pairwise (l : List (Int × ℚ))
    (h : l.Pairwise (fun a b => keyLe a b = true)) : sortedByKey l = true := by
  induction l with
  | nil => rfl
  | cons a t ih =>
    cases t with
    | nil => rfl
    | cons b t' =>
      have hab : keyLe a b = true :=
        (List.pairwise_cons.mp h).1 b (List.mem_cons_self _ _)
      have ht : sortedByKey (b :: t') = true := ih (List.pairwise_cons.mp h).2
      simp [sortedByKey, hab, ht]

/-- The decoded keys of a decorated list, read back through the state. -/
theorem keysView_of_decorated (sl : List (String × SliceRec))
    (l : List (String × (Int × ℚ)))
    (h : ∀ p ∈ l, sliceKey sl p.1 = some p.2) :
    (l.map (fun p => p.1)).filterMap (fun sid =>
        (mapGet sl sid).map (fun r =>
          (r.instance_number, (r.slice_location).getD 0)))
      = l.map (fun p => p.2) := by
  induction l with
  | nil => rfl
  | cons p t ih =>
    have hp := h p (List.mem_cons_self _ _)
    simp only [sliceKey] at hp
    rcases hg : mapGet sl p.1 with _ | r <;> simp only [hg] at hp
    · exact absurd hp (by simp)
    · rcases hl : r.slice_location with _ | x <;> simp only [hl] at hp
      · exact absurd hp (by simp)
      · simp only [Option.some_inj] at hp
        simp only [List.map_cons, List.filterMap_cons, hg, hl, Option.map_some]
        rw [ih (fun q hq => h q (List.mem_cons_of_mem _ hq))]
        rw [← hp]
        simp [hl]

/-! ## State-step lemmas -/

@[simp] theorem withStudies_studies (st : DicomState) (m : List (String × Study)) :
    (withStudies st m).studies = m := rfl

@[simp] theorem withStudies_series (st : DicomState) (m : List (String × Study)) :
    (withStudies st m).series = st.series := rfl

@[simp] theorem withStudies_slices (st : DicomState) (m : List (String × Study)) :
    (withStudies st m).slices = st.slices := rfl

@[simp] theorem withSeries_studies (st : DicomState) (m : List (String × Series)) :
    (withSeries st m).studies = st.studies := rfl

@[simp] theorem withSeries_series (st : DicomState) (m : List (String × Series)) :
    (withSeries st m).series = m := rfl

@[simp] theorem withSeries_slices (st : DicomState) (m : List (String × Series)) :
    (withSeries st m).slices = st.slices := rfl

@[simp] theorem withSlices_studies (st : DicomState) (m : List (String × SliceRec)) :
    (withSlices st m).studies = st.studies := rfl

@[simp] theorem withSlices_series (st : DicomState) (m : List (String × SliceRec)) :
    (withSlices st m).series = st.series := rfl

@[simp] theorem withSlices_slices (st : DicomState) (m : List (String × SliceRec)) :
    (withSlices st m).slices = m := rfl

@[simp] theorem withSeries_withSeries (st : DicomState)
    (m m' : List (String × Series)) :
    withSeries (withSeries st m) m' = withSeries st m' := rfl

theorem studyExt_refl (s : Study) : StudyExt s s :=
  ⟨rfl, rfl, rfl, rfl, rfl, rfl, [], by simp⟩

theorem studyExt_trans {a b c : Study} (h1 : StudyExt a b) (h2 : StudyExt b c) :
    StudyExt a c := by
  obtain ⟨i1, p1, q1, d1, e1, m1, t1, l1⟩ := h1
  obtain ⟨i2, p2, q2, d2, e2, m2, t2, l2⟩ := h2
  exact ⟨i2.trans i1, p2.trans p1, q2.trans q1, d2.trans d1, e2.trans e1,
    m2.trans m1, t1 ++ t2, by rw [l2, l1, List.append_assoc]⟩

theorem seriesExt_refl (s : Series) : SeriesExt s s :=
  ⟨rfl, rfl, rfl, rfl, rfl, [], by simp⟩

theorem seriesExt_trans {a b c : Series} (h1 : SeriesExt a b)
    (h2 : SeriesExt b c) : SeriesExt a c := by
  obtain ⟨i1, p1, q1, d1, e1, t1, l1⟩ := h1
  obtain ⟨i2, p2, q2, d2, e2, t2, l2⟩ := h2
  refine ⟨i2.trans i1, p2.trans p1, q2.trans q1, d2.trans d1, e2.trans e1,
    t1 ++ t2, ?_⟩
  have h3 := l2.trans (l1.append_right t2)
  rwa [List.append_assoc] at h3

theorem ensureStudy_series (st : DicomState) (rec : Study) (u : String) :
    (ensureStudy st rec u).series = st.series := by
  unfold ensureStudy
  cases h : mapGet st.studies u <;> simp

theorem ensureStudy_slices (st : DicomState) (rec : Study) (u : String) :
    (ensureStudy st rec u).slices = st.slices := by
  unfold ensureStudy
  cases h : mapGet st.studies u <;> simp

theorem ensureStudy_studies_pres (st : DicomState) (rec : Study)
    (u k : String) (s : Study) (h : mapGet st.studies k = some s) :
    mapGet (ensureStudy st rec u).studies k = some s := by
  unfold ensureStudy
  cases hu : mapGet st.studies u with
  | some _ => simpa using h
  | none =>
    simp only [withStudies_studies]
    by_cases hk : k = u
    · subst hk; rw [h] at hu; cases hu
    · rw [mapGet_mapSet_ne _ _ _ _ hk]; exact h

theorem ensureSeries_series_eq (st : DicomState) (rec : Series)
    (su u : String) :
    (ensureSeries st rec su u).series =
      match mapGet st.series u with
      | some _ => st.series
      | none => mapSet st.series u rec := by
  unfold ensureSeries
  cases hu : mapGet st.series u with
  | some s => rfl
  | none =>
    dsimp only
    cases hA : mapGet (withSeries st (mapSet st.series u rec)).studies su with
    | none => rfl
    | some study => by_cases hm : u ∈ study.series_ids <;> simp [hm]

theorem ensureSeries_slices (st : DicomState) (rec : Series) (su u : String) :
    (ensureSeries st rec su u).slices = st.slices := by
  unfold ensureSeries
  cases hu : mapGet st.series u with
  | some s => rfl
  | none =>
    dsimp only
    cases hA : mapGet (withSeries st (mapSet st.series u rec)).studies su with
    | none => rfl
    | some study => by_cases hm : u ∈ study.series_ids <;> simp [hm]

theorem ensureSeries_series_pres (st : DicomState) (rec : Series)
    (su u k : String) (s : Series) (h : mapGet st.series k = some s) :
    mapGet (ensureSeries st rec su u).series k = some s := by
  rw [ensureSeries_series_eq]
  cases hu : mapGet st.series u with
  | some _ => exact h
  | none =>
    by_cases hk : k = u
    · subst hk; rw [h] at hu; cases hu
    · rw [mapGet_mapSet_ne _ _ _ _ hk]; exact h

theorem ensureSeries_series_isSome (st : DicomState) (rec : Series)
    (su u : String) : (mapGet (ensureSeries st rec su u).series u).isSome := by
  rw [ensureSeries_series_eq]
  cases hu : mapGet st.series u with
  | some _ => simp [hu]
  | none => rw [mapGet_mapSet_self]; rfl

theorem ensureSeries_sliceIds (st : DicomState) (rec : Series)
    (su u : String) (hrec : rec.slice_ids = []) (v : String) :
    seriesSliceIds (ensureSeries st rec su u) v = seriesSliceIds st v := by
  unfold seriesSliceIds
  rw [ensureSeries_series_eq]
  cases hu : mapGet st.series u with
  | some _ => rfl
  | none =>
    by_cases hk : v = u
    · subst hk; rw [mapGet_mapSet_self, hu]; simp [hrec]
    · rw [mapGet_mapSet_ne _ _ _ _ hk]

theorem ensureSeries_studies_ext (st : DicomState) (rec : Series)
    (su u k : String) (s : Study) (h : mapGet st.studies k = some s) :
    ∃ s', mapGet (ensureSeries st rec su u).studies k = some s' ∧
      StudyExt s s' := by
  unfold ensureSeries
  cases hu : mapGet st.series u with
  | some _ => exact ⟨s, h, studyExt_refl s⟩
  | none =>
    dsimp only
    cases hA : mapGet (withSeries st (mapSet st.series u rec)).studies su with
    | none => exact ⟨s, by simpa using h, studyExt_refl s⟩
    | some study =>
      by_cases hm : u ∈ study.series_ids
      · simp only [hm, if_true]
        exact ⟨s, by simpa using h, studyExt_refl s⟩
      · simp only [hm, if_false, withStudies_studies, withSeries_studies]
        by_cases hk : k = su
        · subst hk
          have hs : study = s := by
            simp only [withSeries_studies] at hA
            rw [h] at hA
            exact (Option.some_inj.mp hA).symm
          subst hs
          refine ⟨{ study with series_ids := study.series_ids ++ [u] },
            mapGet_mapSet_self _ _ _, ?_⟩
          exact ⟨rfl, rfl, rfl, rfl, rfl, rfl, [u], rfl⟩
        · rw [mapGet_mapSet_ne _ _ _ _ hk]
          exact ⟨s, h, studyExt_refl s⟩

theorem failureInsert_slices (st2 : DicomState)
    (slice_id fn fp e su se : String) :
    (failureInsert st2 slice_id fn fp e su se).slices =
      mapSet st2.slices slice_id (failRec st2 slice_id fn fp e su se) := by
  unfold failureInsert
  dsimp only
  by_cases hm :
      slice_id ∈ seriesSliceIds
        (withSlices st2
          (mapSet st2.slices slice_id (failRec st2 slice_id fn fp e su se))) se
  · simp [hm]
  · simp only [hm, if_false]
    cases hA :
        mapGet
          (withSlices st2
            (mapSet st2.slices slice_id (failRec st2 slice_id fn fp e su se))).series
          se with
    | none => rfl
    | some s => rfl

theorem failureInsert_studies (st2 : DicomState)
    (slice_id fn fp e su se : String) :
    (failureInsert st2 slice_id fn fp e su se).studies = st2.studies := by
  unfold failureInsert
  dsimp only
  by_cases hm :
      slice_id ∈ seriesSliceIds
        (withSlices st2
          (mapSet st2.slices slice_id (failRec st2 slice_id fn fp e su se))) se
  · simp [hm]
  · simp only [hm, if_false]
    cases hA :
        mapGet
          (withSlices st2
            (mapSet st2.slices slice_id (failRec st2 slice_id fn fp e su se))).series
          se with
    | none => rfl
    | some s => rfl

theorem failureInsert_sliceIds_self (st2 : DicomState)
    (slice_id fn fp e su se : String) (s : Series)
    (hs : mapGet st2.series se = some s) :
    seriesSliceIds (failureInsert st2 slice_id fn fp e su se) se =
      if slice_id ∈ s.slice_ids then s.slice_ids
      else s.slice_ids ++ [slice_id] := by
  unfold failureInsert
  dsimp only
  have hl : seriesSliceIds
      (withSlices st2
        (mapSet st2.slices slice_id (failRec st2 slice_id fn fp e su se))) se
      = s.slice_ids := by
    unfold seriesSliceIds
    rw [withSlices_series, hs]
  rw [hl]
  by_cases hm : slice_id ∈ s.slice_ids
  · simp only [hm, if_true]
    exact hl
  · simp only [hm, if_false, withSlices_series, hs]
    unfold seriesSliceIds
    simp only [withSeries_series]
    rw [mapGet_mapSet_self]

theorem failureInsert_sliceIds_ne (st2 : DicomState)
    (slice_id fn fp e su se : String) (v : String) (hv : v ≠ se) :
    seriesSliceIds (failureInsert st2 slice_id fn fp e su se) v =
      seriesSliceIds st2 v := by
  unfold failureInsert
  dsimp only
  by_cases hm :
      slice_id ∈ seriesSliceIds
        (withSlices st2
          (mapSet st2.slices slice_id (failRec st2 slice_id fn fp e su se))) se
  · simp only [hm, if_true]
    unfold seriesSliceIds
    rw [withSlices_series]
  · simp only [hm, if_false]
    cases hA :
        mapGet
          (withSlices st2
            (mapSet st2.slices slice_id (failRec st2 slice_id fn fp e su se))).series
          se with
    | none =>
      unfold seriesSliceIds
      rw [withSlices_series]
    | some s =>
      unfold seriesSliceIds
      simp only [withSeries_series, withSlices_series]
      rw [mapGet_mapSet_ne _ _ _ _ hv]

theorem failureInsert_series_ext (st2 : DicomState)
    (slice_id fn fp e su se : String) (k : String) (s : Series)
    (h : mapGet st2.series k = some s) :
    ∃ s', mapGet (failureInsert st2 slice_id fn fp e su se).series k = some s' ∧
      SeriesExt s s' := by
  unfold failureInsert
  dsimp only
  by_cases hm :
      slice_id ∈ seriesSliceIds
        (withSlices st2
          (mapSet st2.slices slice_id (failRec st2 slice_id fn fp e su se))) se
  · simp only [hm, if_true, withSlices_series]
    exact ⟨s, h, seriesExt_refl s⟩
  · simp only [hm, if_false]
    cases hA :
        mapGet
          (withSlices st2
            (mapSet st2.slices slice_id (failRec st2 slice_id fn fp e su se))).series
          se with
    | none =>
      simp only [withSlices_series]
      exact ⟨s, h, seriesExt_refl s⟩
    | some s0 =>
      simp only [withSeries_series, withSlices_series]
      by_cases hk : k = se
      · subst hk
        rw [withSlices_series] at hA
        rw [h] at hA
        cases hA
        refine ⟨{ s with slice_ids := s.slice_ids ++ [slice_id] },
          mapGet_mapSet_self _ _ _, ?_⟩
        exact ⟨rfl, rfl, rfl, rfl, rfl, [slice_id], by simp⟩
      · rw [mapGet_mapSet_ne _ _ _ _ hk]
        exact ⟨s, h, seriesExt_refl s⟩

/-- The ensured pre-state of the `except` branch: study and series records
created from path identity when absent. -/
theorem indexFailure_unfold (st : DicomState)
    (slice_id fn fp e : String) (fi : FolderInfo) :
    indexFailure st slice_id fn fp e fi =
      failureInsert
        (ensureSeries
          (ensureStudy st
            (mkStudyFailure fi ("study_" ++ fi.patient_folder)
              ("series_" ++ fi.subfolder))
            ("study_" ++ fi.patient_folder))
          (mkSeriesFailure fi ("study_" ++ fi.patient_folder)
            ("series_" ++ fi.subfolder))
          ("study_" ++ fi.patient_folder) ("series_" ++ fi.subfolder))
        slice_id fn fp e ("study_" ++ fi.patient_folder)
        ("series_" ++ fi.subfolder) := rfl

theorem indexFailure_slices (st : DicomState)
    (slice_id fn fp e : String) (fi : FolderInfo) :
    ∃ r, (indexFailure st slice_id fn fp e fi).slices =
        mapSet st.slices slice_id r ∧
      r.id = slice_id ∧ r.series_id = "series_" ++ fi.subfolder ∧
      r.study_id = "study_" ++ fi.patient_folder ∧ r.slice_location = none ∧
      r.filename = fn ∧ r.file_path = fp ∧ r.error = some e := by
  rw [indexFailure_unfold, failureInsert_slices]
  rw [ensureSeries_slices, ensureStudy_slices]
  exact ⟨_, rfl, rfl, rfl, rfl, rfl, rfl, rfl, rfl⟩

theorem indexFailure_slices_self (st : DicomState)
    (slice_id fn fp e : String) (fi : FolderInfo) :
    ∃ r, mapGet (indexFailure st slice_id fn fp e fi).slices slice_id = some r ∧
      r.id = slice_id ∧ r.series_id = "series_" ++ fi.subfolder ∧
      r.study_id = "study_" ++ fi.patient_folder ∧ r.slice_location = none ∧
      r.filename = fn ∧ r.file_path = fp ∧ r.error = some e := by
  obtain ⟨r, hsl, hfs⟩ := indexFailure_slices st slice_id fn fp e fi
  exact ⟨r, by rw [hsl, mapGet_mapSet_self], hfs⟩

theorem indexFailure_slices_ne (st : DicomState)
    (slice_id fn fp e : String) (fi : FolderInfo) (x : String)
    (hx : x ≠ slice_id) :
    mapGet (indexFailure st slice_id fn fp e fi).slices x =
      mapGet st.slices x := by
  obtain ⟨r, hsl, _⟩ := indexFailure_slices st slice_id fn fp e fi
  rw [hsl, mapGet_mapSet_ne _ _ _ _ hx]

theorem indexFailure_sliceIds_self (st : DicomState)
    (slice_id fn fp e : String) (fi : FolderInfo) :
    seriesSliceIds (indexFailure st slice_id fn fp e fi)
        ("series_" ++ fi.subfolder) =
      if slice_id ∈ seriesSliceIds st ("series_" ++ fi.subfolder) then
        seriesSliceIds st ("series_" ++ fi.subfolder)
      else seriesSliceIds st ("series_" ++ fi.subfolder) ++ [slice_id] := by
  rw [indexFailure_unfold]
  have hsome :=
    ensureSeries_series_isSome
      (ensureStudy st
        (mkStudyFailure fi ("study_" ++ fi.patient_folder)
          ("series_" ++ fi.subfolder))
        ("study_" ++ fi.patient_folder))
      (mkSeriesFailure fi ("study_" ++ fi.patient_folder)
        ("series_" ++ fi.subfolder))
      ("study_" ++ fi.patient_folder) ("series_" ++ fi.subfolder)
  obtain ⟨s, hs⟩ := Option.isSome_iff_exists.mp hsome
  rw [failureInsert_sliceIds_self _ _ _ _ _ _ _ s hs]
  have hids :
      seriesSliceIds st ("series_" ++ fi.subfolder) = s.slice_ids := by
    have h1 :=
      ensureSeries_sliceIds
        (ensureStudy st
          (mkStudyFailure fi ("study_" ++ fi.patient_folder)
            ("series_" ++ fi.subfolder))
          ("study_" ++ fi.patient_folder))
        (mkSeriesFailure fi ("study_" ++ fi.patient_folder)
          ("series_" ++ fi.subfolder))
        ("study_" ++ fi.patient_folder) ("series_" ++ fi.subfolder) rfl
        ("series_" ++ fi.subfolder)
    unfold seriesSliceIds at h1 ⊢
    rw [hs] at h1
    rw [ensureStudy_series] at h1
    exact h1.symm
  rw [hids]

theorem indexFailure_sliceIds_ne (st : DicomState)
    (slice_id fn fp e : String) (fi : FolderInfo) (v : String)
    (hv : v ≠ "series_" ++ fi.subfolder) :
    seriesSliceIds (indexFailure st slice_id fn fp e fi) v =
      seriesSliceIds st v := by
  rw [indexFailure_unfold]
  rw [failureInsert_sliceIds_ne _ _ _ _ _ _ _ _ hv]
  rw [ensureSeries_sliceIds _ _ _ _ rfl]
  unfold seriesSliceIds
  rw [ensureStudy_series]

/-- The two ways the `try` body's insert can end once the slice id is new to
an existing series: a completed re-sort, or the `except` branch entered from
the raised sort with the append already performed. -/
theorem successInsert_eq (st2 : DicomState) (ds : Dataset)
    (slice_id fn fp : String) (fi : FolderInfo) (su se : String) (s : Series)
    (hs : mapGet st2.series se = some s) (hfresh : slice_id ∉ s.slice_ids) :
    successInsert st2 ds slice_id fn fp fi su se =
      match sortSliceIds
          (mapSet st2.slices slice_id (succRec st2 ds slice_id fn fp su se))
          (s.slice_ids ++ [slice_id]) with
      | some sortedIds =>
        withSeries
          (withSlices st2
            (mapSet st2.slices slice_id (succRec st2 ds slice_id fn fp su se)))
          (mapSet
            (mapSet st2.series se { s with slice_ids := s.slice_ids ++ [slice_id] })
            se { s with slice_ids := sortedIds })
      | none =>
        indexFailure
          (withSeries
            (withSlices st2
              (mapSet st2.slices slice_id (succRec st2 ds slice_id fn fp su se)))
            (mapSet st2.series se { s with slice_ids := s.slice_ids ++ [slice_id] }))
          slice_id fn fp "KeyError: slice_location" fi := by
  unfold successInsert
  dsimp only
  have hl : seriesSliceIds
      (withSlices st2
        (mapSet st2.slices slice_id (succRec st2 ds slice_id fn fp su se))) se
      = s.slice_ids := by
    unfold seriesSliceIds
    rw [withSlices_series, hs]
  rw [hl, if_neg hfresh]
  simp only [withSlices_series, hs]
  simp only [withSeries_slices, withSlices_slices, withSeries_series,
    withSeries_withSeries]

theorem ensuredSuccess_slices (st : DicomState) (ds : Dataset)
    (fi : FolderInfo) (su se : String) :
    (ensuredSuccess st ds fi su se).slices = st.slices := by
  unfold ensuredSuccess
  rw [ensureSeries_slices, ensureStudy_slices]

theorem ensuredSuccess_sliceIds (st : DicomState) (ds : Dataset)
    (fi : FolderInfo) (su se : String) (v : String) :
    seriesSliceIds (ensuredSuccess st ds fi su se) v = seriesSliceIds st v := by
  unfold ensuredSuccess
  rw [ensureSeries_sliceIds _ _ _ _ rfl]
  unfold seriesSliceIds
  rw [ensureStudy_series]

theorem ensuredSuccess_series_isSome (st : DicomState) (ds : Dataset)
    (fi : FolderInfo) (su se : String) :
    (mapGet (ensuredSuccess st ds fi su se).series se).isSome :=
  ensureSeries_series_isSome _ _ _ _

theorem ensuredSuccess_series_pres (st : DicomState) (ds : Dataset)
    (fi : FolderInfo) (su se k : String) (s : Series)
    (h : mapGet st.series k = some s) :
    mapGet (ensuredSuccess st ds fi su se).series k = some s := by
  unfold ensuredSuccess
  refine ensureSeries_series_pres _ _ _ _ _ _ ?_
  rw [ensureStudy_series]
  exact h

theorem ensuredSuccess_studies_ext (st : DicomState) (ds : Dataset)
    (fi : FolderInfo) (su se k : String) (s : Study)
    (h : mapGet st.studies k = some s) :
    ∃ s', mapGet (ensuredSuccess st ds fi su se).studies k = some s' ∧
      StudyExt s s' := by
  unfold ensuredSuccess
  exact ensureSeries_studies_ext _ _ _ _ _ _
    (ensureStudy_studies_pres _ _ _ _ _ h)

/-! ## Render-pipeline lemmas -/

theorem flatten2_gridMap (f : ℚ → ℚ) (g : List (List ℚ)) :
    flatten2 (gridMap f g) = (flatten2 g).map f := by
  simp [flatten2, gridMap]

theorem gridMap_gridMap (f h : ℚ → ℚ) (g : List (List ℚ)) :
    gridMap f (gridMap h g) = gridMap (fun v => f (h v)) g := by
  simp [gridMap, List.map_map]

theorem gridMap_const_of_const (f : ℚ → ℚ) (g : List (List ℚ)) (c : ℚ)
    (hc : ∀ x ∈ flatten2 g, x = c) :
    ∀ x ∈ flatten2 (gridMap f g), x = f c := by
  intro x hx
  rw [flatten2_gridMap] at hx
  obtain ⟨y, hy, rfl⟩ := List.mem_map.mp hx
  rw [hc y hy]

theorem foldl_qmin_const (l : List ℚ) (c : ℚ) (h : ∀ x ∈ l, x = c) :
    l.foldl qmin c = c := by
  induction l with
  | nil => rfl
  | cons x xs ih =>
    have hx : x = c := h x (List.mem_cons_self _ _)
    subst hx
    have : qmin x x = x := by simp [qmin]
    rw [List.foldl_cons, this]
    exact ih (fun y hy => h y (List.mem_cons_of_mem _ hy))

theorem foldl_qmax_const (l : List ℚ) (c : ℚ) (h : ∀ x ∈ l, x = c) :
    l.foldl qmax c = c := by
  induction l with
  | nil => rfl
  | cons x xs ih =>
    have hx : x = c := h x (List.mem_cons_self _ _)
    subst hx
    have : qmax x x = x := by simp [qmax]
    rw [List.foldl_cons, this]
    exact ih (fun y hy => h y (List.mem_cons_of_mem _ hy))

theorem listMin_const (l : List ℚ) (c : ℚ) (hne : l ≠ [])
    (h : ∀ x ∈ l, x = c) : listMin l = some c := by
  cases l with
  | nil => exact absurd rfl hne
  | cons x xs =>
    have hx : x = c := h x (List.mem_cons_self _ _)
    subst hx
    rw [show listMin (x :: xs) = some (xs.foldl qmin x) from rfl,
      foldl_qmin_const xs x (fun y hy => h y (List.mem_cons_of_mem _ hy))]

theorem listMax_const (l : List ℚ) (c : ℚ) (hne : l ≠ [])
    (h : ∀ x ∈ l, x = c) : listMax l = some c := by
  cases l with
  | nil => exact absurd rfl hne
  | cons x xs =>
    have hx : x = c := h x (List.mem_cons_self _ _)
    subst hx
    rw [show listMax (x :: xs) = some (xs.foldl qmax x) from rfl,
      foldl_qmax_const xs x (fun y hy => h y (List.mem_cons_of_mem _ hy))]

/-- The windowing dispatch is always an elementwise map of the grid. -/
theorem applyWindow_gridMap (wc ww : Option ℚ) (f : PixelFile)
    (g : List (List ℚ)) :
    ∃ F : ℚ → ℚ, applyWindow wc ww f g = gridMap F g := by
  unfold applyWindow
  rcases wc with _ | c <;> rcases ww with _ | w
  · rcases f.windowCenter with _ | c' <;> rcases f.windowWidth with _ | w'
    · exact ⟨id, by simp [gridMap]⟩
    · exact ⟨id, by simp [gridMap]⟩
    · exact ⟨id, by simp [gridMap]⟩
    · exact ⟨_, rfl⟩
  · rcases f.windowCenter with _ | c' <;> rcases f.windowWidth with _ | w'
    · exact ⟨id, by simp [gridMap]⟩
    · exact ⟨id, by simp [gridMap]⟩
    · exact ⟨id, by simp [gridMap]⟩
    · exact ⟨_, rfl⟩
  · rcases f.windowCenter with _ | c' <;> rcases f.windowWidth with _ | w'
    · exact ⟨id, by simp [gridMap]⟩
    · exact ⟨id, by simp [gridMap]⟩
    · exact ⟨id, by simp [gridMap]⟩
    · exact ⟨_, rfl⟩
  · exact ⟨_, rfl⟩

/-- The zero-fill branch of normalization: an all-constant post-window grid
maps to the all-zero 8-bit grid of the same shape. -/
theorem normalizeStage_const (g3 : List (List ℚ)) (c : ℚ)
    (hne : flatten2 g3 ≠ []) (hc : ∀ x ∈ flatten2 g3, x = c) :
    normalizeStage g3 = some (g3.map (fun row => row.map (fun _ => 0))) := by
  have h0 : toU8 0 = 0 := by decide
  unfold normalizeStage
  rw [listMin_const _ _ hne hc, listMax_const _ _ hne hc]
  dsimp only
  rw [if_neg (lt_irrefl _)]
  simp [gridMap, List.map_map, Function.comp, h0]

/-- An all-constant sample grid renders as the all-zero grid of the same
shape: after inversion, rescale and windowing the grid is still constant,
so the post-clip minimum equals the post-clip maximum and the zero-fill
branch runs. -/
theorem renderPixels_const (f : PixelFile) (wc ww : Option ℚ)
    (g : List (List ℚ)) (c : ℚ) (hne : flatten2 g ≠ [])
    (hc : ∀ x ∈ flatten2 g, x = c) :
    renderPixels f wc ww g = some (g.map (fun row => row.map (fun _ => 0))) := by
  unfold renderPixels
  by_cases hph : (f.photometric).getD "MONOCHROME2" = "MONOCHROME1"
  · have hinv : invStage f g = some (gridMap (fun v => c - v) g) := by
      unfold invStage
      rw [if_pos hph, listMax_const _ c hne hc]
    rw [hinv]
    dsimp only
    have hres : rescaleStage f (gridMap (fun v => c - v) g) =
        gridMap (fun v =>
          (c - v) * (f.rescaleSlope).getD 1 + (f.rescaleIntercept).getD 0) g := by
      unfold rescaleStage
      rw [gridMap_gridMap]
    rw [hres]
    obtain ⟨F, hF⟩ := applyWindow_gridMap wc ww f
      (gridMap (fun v =>
        (c - v) * (f.rescaleSlope).getD 1 + (f.rescaleIntercept).getD 0) g)
    rw [hF, gridMap_gridMap]
    rw [normalizeStage_const _
      (F ((c - c) * (f.rescaleSlope).getD 1 + (f.rescaleIntercept).getD 0))
      (by rw [flatten2_gridMap]; simpa using hne)
      (gridMap_const_of_const _ g c hc)]
    simp [gridMap, List.map_map, Function.comp]
  · have hinv : invStage f g = some g := by
      unfold invStage
      rw [if_neg hph]
    rw [hinv]
    dsimp only
    have hres : rescaleStage f g =
        gridMap (fun v =>
          v * (f.rescaleSlope).getD 1 + (f.rescaleIntercept).getD 0) g := rfl
    rw [hres]
    obtain ⟨F, hF⟩ := applyWindow_gridMap wc ww f
      (gridMap (fun v =>
        v * (f.rescaleSlope).getD 1 + (f.rescaleIntercept).getD 0) g)
    rw [hF, gridMap_gridMap]
    rw [normalizeStage_const _
      (F (c * (f.rescaleSlope).getD 1 + (f.rescaleIntercept).getD 0))
      (by rw [flatten2_gridMap]; simpa using hne)
      (gridMap_const_of_const _ g c hc)]
    simp [gridMap, List.map_map, Function.comp]

/-! ## Claim theorems: rendering pipeline -/

/-- C2: For the 2×2 sample grid `[[0,100],[200,300]]` with rescale slope 1
and intercept 0 (the defaults for absent attributes) and an explicit window
center 150 / width 100, `get_slice_image` clips every sample to `[100,200]`
(windowing stage shown in the second conjunct), then normalizes by the
post-clip minimum 100 and maximum 200, producing exactly the 8-bit output
`[[0,0],[255,255]]`. -/
theorem C2_windowing_example :
    getSliceImage oneSliceState (gridDisk [[0, 100], [200, 300]]) "s1"
        (some 150) (some 100) = some [[0, 0], [255, 255]] ∧
    applyWindow (some 150) (some 100) (basePixelFile [[0, 100], [200, 300]])
        [[0, 100], [200, 300]] = [[100, 100], [200, 200]] := by
  constructor <;> decide

/-- C5: `get_slice_image` returns null — never an exception, which the
embedding renders as totality of `getSliceImage` — whenever the slice
identifier is not in the index, or the backing path is falsy or absent from
disk, or the decoded file carries no pixel payload, or pixel decoding
throws; and the call leaves the index unchanged (the method performs no
writes, recorded by `getSliceImageCall` returning the state as-is). -/
theorem C5_render_missing_cases (st : DicomState) (disk : Disk)
    (sid : String) (wc ww : Option ℚ) :
    (mapGet st.slices sid = none → getSliceImage st disk sid wc ww = none) ∧
    (∀ r, mapGet st.slices sid = some r →
      r.file_path = "" ∨ mapGet disk r.file_path = none →
      getSliceImage st disk sid wc ww = none) ∧
    (∀ r f, mapGet st.slices sid = some r →
      mapGet disk r.file_path = some (DiskFile.readable f) →
      f.pixelData = none → getSliceImage st disk sid wc ww = none) ∧
    (∀ r f, mapGet st.slices sid = some r →
      mapGet disk r.file_path = some (DiskFile.readable f) →
      f.pixelDecodeFails = true → getSliceImage st disk sid wc ww = none) ∧
    (getSliceImageCall st disk sid wc ww).2 = st := by
  refine ⟨?_, ?_, ?_, ?_, rfl⟩
  · intro h
    unfold getSliceImage
    simp only [h]
  · intro r hr hcase
    unfold getSliceImage
    simp only [hr]
    rcases hcase with hfp | hdisk
    · rw [if_pos hfp]
    · by_cases hfp : r.file_path = ""
      · rw [if_pos hfp]
      · rw [if_neg hfp]
        simp only [hdisk]
  · intro r f hr hd hpx
    unfold getSliceImage
    simp only [hr]
    by_cases hfp : r.file_path = ""
    · rw [if_pos hfp]
    · rw [if_neg hfp]
      simp only [hd, hpx]
  · intro r f hr hd hdec
    unfold getSliceImage
    simp only [hr]
    by_cases hfp : r.file_path = ""
    · rw [if_pos hfp]
    · rw [if_neg hfp]
      simp only [hd, hdec]
      cases hpx : f.pixelData with
      | none => rfl
      | some g => simp

/-- C5 witness: the spec's own example `render("nonexistent-id", …)` on an
empty index returns null and leaves the index unchanged. -/
theorem C5_witness :
    getSliceImage emptyState [] "nonexistent-id" none none = none ∧
    (getSliceImageCall emptyState [] "nonexistent-id" none none).2 =
      emptyState :=
  ⟨(C5_render_missing_cases emptyState [] "nonexistent-id" none none).1 rfl,
   (C5_render_missing_cases emptyState [] "nonexistent-id" none none).2.2.2.2⟩

/-- C6: For every sample grid whose samples are all equal (so the post-clip
minimum equals the post-clip maximum after each elementwise stage),
`get_slice_image` produces the uniformly zero 8-bit output of the same
shape, without dividing by zero or raising (totality of the embedding). -/
theorem C6_degenerate_range (st : DicomState) (disk : Disk) (sid : String)
    (wc ww : Option ℚ) (r : SliceRec) (f : PixelFile) (g0 : List (List ℚ))
    (hr : mapGet st.slices sid = some r) (hfp : ¬ r.file_path = "")
    (hd : mapGet disk r.file_path = some (DiskFile.readable f))
    (hg : f.pixelData = some g0) (hdec : f.pixelDecodeFails = false) :
    (∀ g1 m, invStage f g0 = some g1 →
      listMin (flatten2 (applyWindow wc ww f (rescaleStage f g1))) = some m →
      listMax (flatten2 (applyWindow wc ww f (rescaleStage f g1))) = some m →
      getSliceImage st disk sid wc ww =
        some ((applyWindow wc ww f (rescaleStage f g1)).map
          (fun row => row.map (fun _ => 0)))) ∧
    (∀ c, flatten2 g0 ≠ [] → (∀ x ∈ flatten2 g0, x = c) →
      getSliceImage st disk sid wc ww =
        some (g0.map (fun row => row.map (fun _ => 0)))) := by
  have hpre : getSliceImage st disk sid wc ww = renderPixels f wc ww g0 := by
    unfold getSliceImage
    simp only [hr, if_neg hfp, hd, hg, hdec]
    simp only [Bool.false_eq_true, if_false]
  constructor
  · intro g1 m hinv hmin hmax
    have h0 : toU8 0 = 0 := by decide
    rw [hpre]
    unfold renderPixels
    rw [hinv]
    dsimp only
    unfold normalizeStage
    rw [hmin, hmax]
    dsimp only
    rw [if_neg (lt_irrefl _)]
    simp [gridMap, List.map_map, Function.comp, h0]
  · intro c hne hc
    rw [hpre]
    exact renderPixels_const f wc ww g0 c hne hc

/-- C6 witness: the all-7 2×2 grid has post-clip minimum = maximum = 7 and
renders as the all-zero 8-bit output. -/
theorem C6_witness :
    getSliceImage oneSliceState (gridDisk [[7, 7], [7, 7]]) "s1" none none =
      some [[0, 0], [0, 0]] := by
  have h := (C6_degenerate_range oneSliceState (gridDisk [[7, 7], [7, 7]])
    "s1" none none s1Rec (basePixelFile [[7, 7], [7, 7]]) [[7, 7], [7, 7]]
    (by decide) (by decide) (by decide) rfl rfl).1 [[7, 7], [7, 7]] 7
    (by decide) (by decide) (by decide)
  exact h.trans (by decide)

/-- C10: Supplying only one of the explicit window parameters (center
without width, or width without center) is ignored entirely: the render
behaves exactly as if no explicit window had been given, falling through to
the header-carried window when present and otherwise to min/max
normalization — the fall-through is the same code path, so the results are
definitionally equal. -/
theorem C10_one_sided_window_ignored (st : DicomState) (disk : Disk)
    (sid : String) (c w : ℚ) :
    getSliceImage st disk sid (some c) none =
      getSliceImage st disk sid none none ∧
    getSliceImage st disk sid none (some w) =
      getSliceImage st disk sid none none := by
  constructor <;> rfl

/-! ## Claim theorems: folder-structure fallback -/

/-- C7: the path-derived fallback identity: with 3+ segments
`patient_folder = segment[0]`, `body_location = segment[1]`, and
`subfolder = join(segments[1:-1])` when more than 3 segments else
`segment[1]`; with exactly 2 segments all three fields equal `segment[0]`;
with 0–1 segments the sentinels `"Unknown"`/`""`.  And concretely, the path
`"PatientA/Brain/img1.dcm"` with no embedded identifiers yields the study
`study_PatientA` and a series from body location `"Brain"`. -/
theorem C7_path_fallback :
    (∀ p0 p1 p2 rest, parseParts (p0 :: p1 :: p2 :: rest) =
      { patient_folder := p0, body_location := p1
        subfolder :=
          if rest ≠ [] then
            String.intercalate "/" ((p1 :: p2 :: rest).dropLast)
          else p1 }) ∧
    (∀ p0 p1, parseParts [p0, p1] =
      { patient_folder := p0, body_location := p0, subfolder := p0 }) ∧
    (∀ p0, parseParts [p0] =
      { patient_folder := "Unknown", body_location := "Unknown",
        subfolder := "" }) ∧
    (parseParts [] =
      { patient_folder := "Unknown", body_location := "Unknown",
        subfolder := "" }) ∧
    (parse_folder_structure "PatientA/Brain/img1.dcm" =
      { patient_folder := "PatientA", body_location := "Brain",
        subfolder := "Brain" }) ∧
    (mapGet brainState.studies "study_PatientA").isSome = true ∧
    ((mapGet brainState.series "series_Brain").map Series.body_part) =
      some (some "Brain") := by
  refine ⟨?_, ?_, ?_, by decide, by decide, by decide, by decide⟩
  · intro p0 p1 p2 rest
    unfold parseParts
    have hlen : (p0 :: p1 :: p2 :: rest).length ≥ 3 := by
      simp only [List.length_cons]
      omega
    rw [if_pos hlen]
    cases rest with
    | nil => simp [List.getD]
    | cons a as =>
      have hlen3 : (p0 :: p1 :: p2 :: a :: as).length > 3 := by
        simp only [List.length_cons]
        omega
      rw [if_pos hlen3]
      simp [List.getD]
  · intro p0 p1
    unfold parseParts
    simp
  · intro p0
    unfold parseParts
    simp

/-! ## Claim theorems: field-population policy (C4) -/

/-- C4 counterexample: two traced inputs falsifying the claimed three-tier
policy.  (a) A header whose `PatientID` attribute is present but empty: the
created study stores the empty string verbatim as the patient identifier —
not the path-derived hint `"a"` and not a fixed default — so the claimed
"header value only when present and non-empty" policy fails for this field.
(b) The 3-segment path `"//b.dcm"`, whose patient and body-location
segments are empty, with an identifier-free header: the created records
store the empty hint itself as patient name and body part, so the claimed
fixed-default third tier (e.g. `"Unknown"`) is never reached for those
fields. -/
theorem C4_counterexample :
    (parse_folder_structure "a/b/c.dcm").patient_folder = "a" ∧
    (mapGet emptyIdState.studies "study_a").map Study.patient_id =
      some (some "") ∧
    ("" : String) ≠ "a" ∧ ("" : String) ≠ "Unknown" ∧
    slashFolder.patient_folder = "" ∧ slashFolder.body_location = "" ∧
    (mapGet slashState.studies "study_").map Study.patient_name =
      some "" ∧
    (mapGet slashState.series "series_").map Series.body_part =
      some (some "") := by
  refine ⟨by decide, by decide, by decide, by decide, by decide, by decide,
    by decide, by decide⟩

/-- C4 amended: the per-field population policy of a newly created Study or
Series record.  Only series description follows the full claimed chain
(header value if present and non-empty, else the path-derived body-location
hint, else the fixed default `"Series"`).  Patient name and body part stop
at the second tier: a non-empty header value, else the path-derived hint
stored verbatim even when empty — no fixed default.  Study description
falls back to the derived string `"Patient: "` + patient name, not to a
hint or a fixed constant.  Patient identifier stores a present header value
verbatim — even when empty — and uses the path hint only when the attribute
is absent; series number stores a present header value and otherwise the
fixed default `1` (no path hint). -/
theorem C4_field_policy (ds : Dataset) (fi : FolderInfo) (su se : String) :
    ((ds.patientName = none ∨ ds.patientName = some "") →
      (mkStudySuccess ds fi su).patient_name = fi.patient_folder) ∧
    (∀ v, v ≠ "" → ds.patientName = some v →
      (mkStudySuccess ds fi su).patient_name = v) ∧
    (∀ v, ds.patientID = some v →
      (mkStudySuccess ds fi su).patient_id = some v) ∧
    (ds.patientID = none →
      (mkStudySuccess ds fi su).patient_id = some fi.patient_folder) ∧
    (∀ v, v ≠ "" → ds.studyDescription = some v →
      (mkStudySuccess ds fi su).study_description = v) ∧
    ((ds.studyDescription = none ∨ ds.studyDescription = some "") →
      (mkStudySuccess ds fi su).study_description =
        "Patient: " ++ (mkStudySuccess ds fi su).patient_name) ∧
    (∀ n, ds.seriesNumber = some n →
      (mkSeriesSuccess ds fi su se).series_number = some n) ∧
    (ds.seriesNumber = none →
      (mkSeriesSuccess ds fi su se).series_number = some 1) ∧
    (∀ v, v ≠ "" → ds.seriesDescription = some v →
      (mkSeriesSuccess ds fi su se).series_description = v) ∧
    ((ds.seriesDescription = none ∨ ds.seriesDescription = some "") →
      (mkSeriesSuccess ds fi su se).series_description =
        orS fi.body_location "Series") ∧
    (∀ v, v ≠ "" → ds.bodyPartExamined = some v →
      (mkSeriesSuccess ds fi su se).body_part = some v) ∧
    ((ds.bodyPartExamined = none ∨ ds.bodyPartExamined = some "") →
      (mkSeriesSuccess ds fi su se).body_part = some fi.body_location) := by
  refine ⟨?_, ?_, ?_, ?_, ?_, ?_, ?_, ?_, ?_, ?_, ?_, ?_⟩
  · rintro (h | h) <;> simp [mkStudySuccess, h, orS]
  · intro v hv h
    simp [mkStudySuccess, h, orS, hv]
  · intro v h
    simp [mkStudySuccess, h]
  · intro h
    simp [mkStudySuccess, h]
  · intro v hv h
    simp [mkStudySuccess, h, orS, hv]
  · rintro (h | h) <;> simp [mkStudySuccess, h, orS]
  · intro n h
    simp [mkSeriesSuccess, h]
  · intro h
    simp [mkSeriesSuccess, h]
  · intro v hv h
    simp [mkSeriesSuccess, h, orS, hv]
  · rintro (h | h) <;> simp [mkSeriesSuccess, h, orS]
  · intro v hv h
    by_cases hb : fi.body_location = "" <;>
      simp [mkSeriesSuccess, h, orS, hv]
  · rintro (h | h) <;> by_cases hb : fi.body_location = "" <;>
      simp [mkSeriesSuccess, h, orS, hb]

/-- C4 witness: with `PatientID` present but empty the stored identifier is
the empty string itself. -/
theorem C4_witness :
    (mkStudySuccess emptyIdDs abFolder "study_a").patient_id = some "" :=
  (C4_field_policy emptyIdDs abFolder "study_a" "series_b").2.2.1 "" rfl

/-! ## Claim theorems: ordering invariant (C1) -/

/-- C1 counterexample: resolve a parseable file with header instance number
5 into `series_b`, then a file whose header parsing fails into the same
series.  The failure branch appends without re-sorting, leaving the key
sequence `[(5,0), (2,0)]` — not non-decreasing, so the invariant does not
survive failed-parse insertions. -/
theorem C1_counterexample :
    seriesKeysView mixedState2 "series_b" = [(5, 0), (2, 0)] ∧
    sortedByKey (seriesKeysView mixedState2 "series_b") = false := by
  refine ⟨by decide, by decide⟩

/-! ## Claim theorems: synthesized identifiers (C3) -/

/-- C3 counterexample: two unrelated uploads under 1-segment paths (empty
path-derived subfolder) and headers without embedded identifiers both land
in the series whose identifier is the bare prefix `"series_"` — the
freshly-generated-slice-identifier fallback claimed by the spec never
applies, because the path parser always supplies the (possibly empty)
`subfolder` key. -/
theorem C3_counterexample :
    bareFolder.subfolder = "" ∧
    (mapGet bareState2.slices "A").map SliceRec.series_id = some "series_" ∧
    (mapGet bareState2.slices "B").map SliceRec.series_id = some "series_" ∧
    (mapGet bareState2.series "series_").map Series.slice_ids =
      some ["A", "B"] := by
  refine ⟨by decide, by decide, by decide, by decide⟩

theorem sliceKey_congr (m m' : List (String × SliceRec)) (x : String)
    (h : mapGet m x = mapGet m' x) : sliceKey m x = sliceKey m' x := by
  unfold sliceKey
  rw [h]

/-- Whatever path the `try` body's insert takes, the stored slice record
carries the declared filename, the id, the backing path, and either the
resolved identifiers or (after a raised re-sort) the path-synthesized
ones. -/
theorem successInsert_slices_fields (st2 : DicomState) (ds : Dataset)
    (slice_id fn fp : String) (fi : FolderInfo) (su se : String) :
    (∃ r, mapGet (successInsert st2 ds slice_id fn fp fi su se).slices slice_id
        = some r ∧
      r.id = slice_id ∧ r.filename = fn ∧ r.file_path = fp ∧
      r.error = none ∧ r.study_id = su ∧ r.series_id = se) ∨
    (∃ r, mapGet (successInsert st2 ds slice_id fn fp fi su se).slices slice_id
        = some r ∧
      r.id = slice_id ∧ r.filename = fn ∧ r.file_path = fp ∧
      r.slice_location = none ∧
      r.study_id = "study_" ++ fi.patient_folder ∧
      r.series_id = "series_" ++ fi.subfolder) := by
  unfold successInsert
  dsimp only
  by_cases hm : slice_id ∈ seriesSliceIds
      (withSlices st2
        (mapSet st2.slices slice_id (succRec st2 ds slice_id fn fp su se))) se
  · rw [if_pos hm]
    exact Or.inl ⟨_, by rw [withSlices_slices, mapGet_mapSet_self],
      rfl, rfl, rfl, rfl, rfl, rfl⟩
  · rw [if_neg hm]
    cases hs : mapGet
        (withSlices st2
          (mapSet st2.slices slice_id (succRec st2 ds slice_id fn fp su se))).series
        se with
    | none =>
      exact Or.inl ⟨_, by rw [withSlices_slices, mapGet_mapSet_self],
        rfl, rfl, rfl, rfl, rfl, rfl⟩
    | some s =>
      dsimp only
      cases hsort : sortSliceIds
          (withSeries
            (withSlices st2
              (mapSet st2.slices slice_id (succRec st2 ds slice_id fn fp su se)))
            (mapSet
              (withSlices st2
                (mapSet st2.slices slice_id (succRec st2 ds slice_id fn fp su se))).series
              se { s with slice_ids := s.slice_ids ++ [slice_id] })).slices
          (s.slice_ids ++ [slice_id]) with
      | some sortedIds =>
        exact Or.inl ⟨_, by rw [withSeries_slices, withSeries_slices,
          withSlices_slices, mapGet_mapSet_self], rfl, rfl, rfl, rfl, rfl, rfl⟩
      | none =>
        obtain ⟨r, hr, hid, hser, hstu, hloc, hfn, hfp', _⟩ :=
          indexFailure_slices_self
            (withSeries
              (withSlices st2
                (mapSet st2.slices slice_id (succRec st2 ds slice_id fn fp su se)))
              (mapSet
                (withSlices st2
                  (mapSet st2.slices slice_id
                    (succRec st2 ds slice_id fn fp su se))).series
                se { s with slice_ids := s.slice_ids ++ [slice_id] }))
            slice_id fn fp "KeyError: slice_location" fi
        exact Or.inr ⟨r, hr, hid, hfn, hfp', hloc, hstu, hser⟩

/-- `indexSuccess` is the insert applied to the ensured state. -/
theorem indexSuccess_unfold (st : DicomState) (ds : Dataset)
    (slice_id fn fp : String) (fi : FolderInfo) :
    indexSuccess st ds slice_id fn fp fi =
      successInsert
        (ensuredSuccess st ds fi
          (uidOr ds.studyInstanceUID ("study_" ++ fi.patient_folder))
          (uidOr ds.seriesInstanceUID ("series_" ++ fi.subfolder)))
        ds slice_id fn fp fi
        (uidOr ds.studyInstanceUID ("study_" ++ fi.patient_folder))
        (uidOr ds.seriesInstanceUID ("series_" ++ fi.subfolder)) := rfl

/-- C3 amended: when the header carries no (or an empty) embedded study or
series identifier, the resolver synthesizes exactly
`"study_" ++ patient_folder` and `"series_" ++ subfolder`.  The
slice-identifier fallback written in the source (`.get('subfolder',
slice_id)`) is dead code — the path parser always supplies all three keys —
so an empty subfolder yields the bare prefix `"series_"`, shared across
unrelated uploads, and never the fresh slice identifier. -/
theorem C3_synthesized_ids (st : DicomState) (parse : Option Dataset)
    (slice_id fn fp errMsg : String) (fi : FolderInfo)
    (hsu : ∀ ds, parse = some ds →
      ds.studyInstanceUID = none ∨ ds.studyInstanceUID = some "")
    (hse : ∀ ds, parse = some ds →
      ds.seriesInstanceUID = none ∨ ds.seriesInstanceUID = some "") :
    ∃ r, mapGet (indexDicomFile st parse slice_id fn fp fi errMsg).slices
        slice_id = some r ∧
      r.study_id = "study_" ++ fi.patient_folder ∧
      r.series_id = "series_" ++ fi.subfolder := by
  cases parse with
  | none =>
    obtain ⟨r, hr, _, hser, hstu, _, _, _, _⟩ :=
      indexFailure_slices_self st slice_id fn fp errMsg fi
    exact ⟨r, hr, hstu, hser⟩
  | some ds =>
    have h1 : uidOr ds.studyInstanceUID ("study_" ++ fi.patient_folder) =
        "study_" ++ fi.patient_folder := by
      rcases hsu ds rfl with h | h <;> simp [uidOr, h]
    have h2 : uidOr ds.seriesInstanceUID ("series_" ++ fi.subfolder) =
        "series_" ++ fi.subfolder := by
      rcases hse ds rfl with h | h <;> simp [uidOr, h]
    rw [show indexDicomFile st (some ds) slice_id fn fp fi errMsg =
      indexSuccess st ds slice_id fn fp fi from rfl]
    rw [indexSuccess_unfold, h1, h2]
    rcases successInsert_slices_fields
        (ensuredSuccess st ds fi ("study_" ++ fi.patient_folder)
          ("series_" ++ fi.subfolder))
        ds slice_id fn fp fi ("study_" ++ fi.patient_folder)
        ("series_" ++ fi.subfolder) with
      ⟨r, hr, _, _, _, _, hstu, hser⟩ | ⟨r, hr, _, _, _, _, hstu, hser⟩
    · exact ⟨r, hr, hstu, hser⟩
    · exact ⟨r, hr, hstu, hser⟩

/-- C3 witness: a 1-segment path and an identifier-free header land the
slice in `study_Unknown` and the bare `series_`. -/
theorem C3_witness :
    ∃ r, mapGet bareState1.slices "A" = some r ∧
      r.study_id = "study_" ++ bareFolder.patient_folder ∧
      r.series_id = "series_" ++ bareFolder.subfolder :=
  C3_synthesized_ids emptyState (some emptyDataset) "A" "img1.dcm" "A.dcm"
    "e" bareFolder
    (fun ds h => by cases h; exact Or.inl rfl)
    (fun ds h => by cases h; exact Or.inl rfl)

/-- C1 amended: a successfully parsed resolve whose slice identifier is new
to its series re-establishes the ordering invariant — afterwards, provided
every slice referenced by the series carries a sort key (equivalently, none
of them was produced by the failure branch, whose records have no
`slice_location`), the series' key sequence is non-decreasing under
`(instance_number, slice_location)`.  Failure-branch insertions merely
append (see the counterexample). -/
theorem C1_sorted_after_success (st : DicomState) (ds : Dataset)
    (slice_id fn fp : String) (fi : FolderInfo)
    (hfresh : slice_id ∉ seriesSliceIds st
      (uidOr ds.seriesInstanceUID ("series_" ++ fi.subfolder)))
    (hkeys : ∀ sid ∈ seriesSliceIds (indexSuccess st ds slice_id fn fp fi)
        (uidOr ds.seriesInstanceUID ("series_" ++ fi.subfolder)),
      (sliceKey (indexSuccess st ds slice_id fn fp fi).slices sid).isSome) :
    sortedByKey (seriesKeysView (indexSuccess st ds slice_id fn fp fi)
      (uidOr ds.seriesInstanceUID ("series_" ++ fi.subfolder))) = true := by
  set su := uidOr ds.studyInstanceUID ("study_" ++ fi.patient_folder) with hsu
  set se := uidOr ds.seriesInstanceUID ("series_" ++ fi.subfolder) with hsev
  set E := ensuredSuccess st ds fi su se with hE
  obtain ⟨s, hs⟩ := Option.isSome_iff_exists.mp
    (ensuredSuccess_series_isSome st ds fi su se)
  have h2 : seriesSliceIds E se = s.slice_ids := by
    unfold seriesSliceIds
    rw [hs]
  have hsl : s.slice_ids = seriesSliceIds st se :=
    h2.symm.trans (ensuredSuccess_sliceIds st ds fi su se se)
  have hfresh' : slice_id ∉ s.slice_ids := by
    rw [hsl]; exact hfresh
  rw [indexSuccess_unfold] at hkeys ⊢
  rw [← hsu, ← hsev, ← hE] at hkeys ⊢
  rw [successInsert_eq E ds slice_id fn fp fi su se s hs hfresh'] at hkeys ⊢
  set SL := mapSet E.slices slice_id (succRec E ds slice_id fn fp su se)
    with hSL
  cases hsort : sortSliceIds SL (s.slice_ids ++ [slice_id]) with
  | some sortedIds =>
    dsimp only at hkeys ⊢
    -- decode the sort
    unfold sortSliceIds at hsort
    cases hkl : keyedList SL (s.slice_ids ++ [slice_id]) with
    | none => rw [hkl] at hsort; cases hsort
    | some ps =>
      rw [hkl] at hsort
      simp only [Option.some_inj] at hsort
      have hmem : ∀ p ∈ List.insertionSort keyRel ps,
          sliceKey SL p.1 = some p.2 := fun p hp =>
        keyedList_some_key SL _ ps hkl p
          ((List.perm_insertionSort keyRel ps).mem_iff.mp hp)
      have hlist : seriesSliceIds
          (withSeries (withSlices E SL)
            (mapSet (mapSet E.series se { s with slice_ids := s.slice_ids ++ [slice_id] })
              se { s with slice_ids := sortedIds })) se = sortedIds := by
        unfold seriesSliceIds
        rw [withSeries_series, mapGet_mapSet_self]
      have hview : seriesKeysView
          (withSeries (withSlices E SL)
            (mapSet (mapSet E.series se { s with slice_ids := s.slice_ids ++ [slice_id] })
              se { s with slice_ids := sortedIds })) se =
          (List.insertionSort keyRel ps).map (fun p => p.2) := by
        unfold seriesKeysView
        rw [hlist, ← hsort]
        exact keysView_of_decorated SL _ hmem
      rw [hview]
      refine sortedByKey_of_pairwise _ ?_
      exact List.Pairwise.map _ (fun a b h => h)
        (List.sorted_insertionSort keyRel ps)
  | none =>
    rw [hsort] at hkeys
    dsimp only at hkeys
    exfalso
    unfold sortSliceIds at hsort
    cases hkl : keyedList SL (s.slice_ids ++ [slice_id]) with
    | some ps => rw [hkl] at hsort; cases hsort
    | none =>
      obtain ⟨x, hx, hxk⟩ := keyedList_none SL _ hkl
      by_cases hxeq : x = slice_id
      · subst hxeq
        unfold sliceKey at hxk
        rw [hSL, mapGet_mapSet_self] at hxk
        simp [succRec] at hxk
      · set st4 := withSeries (withSlices E SL)
          (mapSet E.series se { s with slice_ids := s.slice_ids ++ [slice_id] })
          with hst4
        have hFx : mapGet (indexFailure st4 slice_id fn fp
            "KeyError: slice_location" fi).slices x = mapGet SL x :=
          indexFailure_slices_ne st4 slice_id fn fp _ fi x hxeq
        have hkeyF : sliceKey (indexFailure st4 slice_id fn fp
            "KeyError: slice_location" fi).slices x = none :=
          (sliceKey_congr _ _ x hFx).trans hxk
        have hx4 : seriesSliceIds st4 se = s.slice_ids ++ [slice_id] := by
          unfold seriesSliceIds
          rw [hst4, withSeries_series, mapGet_mapSet_self]
        have hxmem : x ∈ seriesSliceIds (indexFailure st4 slice_id fn fp
            "KeyError: slice_location" fi) se := by
          by_cases hseq : se = "series_" ++ fi.subfolder
          · rw [hseq] at hx4 ⊢
            rw [indexFailure_sliceIds_self]
            by_cases hin : slice_id ∈ seriesSliceIds st4
                ("series_" ++ fi.subfolder)
            · rw [if_pos hin, hx4]; exact hx
            · rw [if_neg hin, hx4]
              exact List.mem_append_left _ hx
          · rw [indexFailure_sliceIds_ne st4 _ _ _ _ fi se hseq, hx4]
            exact hx
        have := hkeys x hxmem
        rw [hkeyF] at this
        simp at this

/-- C1 witness: inserting the instance-number-5 slice into an empty index
leaves `series_b` sorted. -/
theorem C1_witness :
    sortedByKey (seriesKeysView
      (indexSuccess emptyState instFiveDs "A" "c.dcm" "A.dcm" abFolder)
      (uidOr instFiveDs.seriesInstanceUID ("series_" ++ abFolder.subfolder)))
      = true :=
  C1_sorted_after_success emptyState instFiveDs "A" "c.dcm" "A.dcm" abFolder
    (by decide) (by decide)

/-! ## Claim theorems: first-writer-wins (C8) -/

theorem indexFailure_studies_ext (st : DicomState)
    (slice_id fn fp e : String) (fi : FolderInfo) (k : String) (s : Study)
    (h : mapGet st.studies k = some s) :
    ∃ s', mapGet (indexFailure st slice_id fn fp e fi).studies k = some s' ∧
      StudyExt s s' := by
  rw [indexFailure_unfold, failureInsert_studies]
  exact ensureSeries_studies_ext _ _ _ _ _ _
    (ensureStudy_studies_pres _ _ _ _ _ h)

theorem indexFailure_series_ext (st : DicomState)
    (slice_id fn fp e : String) (fi : FolderInfo) (k : String) (s : Series)
    (h : mapGet st.series k = some s) :
    ∃ s', mapGet (indexFailure st slice_id fn fp e fi).series k = some s' ∧
      SeriesExt s s' := by
  rw [indexFailure_unfold]
  refine failureInsert_series_ext _ _ _ _ _ _ _ _ _ ?_
  refine ensureSeries_series_pres _ _ _ _ _ _ ?_
  rw [ensureStudy_series]
  exact h

theorem successInsert_studies_ext (st2 : DicomState) (ds : Dataset)
    (slice_id fn fp : String) (fi : FolderInfo) (su se k : String) (s : Study)
    (h : mapGet st2.studies k = some s) :
    ∃ s', mapGet (successInsert st2 ds slice_id fn fp fi su se).studies k
      = some s' ∧ StudyExt s s' := by
  unfold successInsert
  dsimp only
  split
  · exact ⟨s, by simpa using h, studyExt_refl s⟩
  · split
    · exact ⟨s, by simpa using h, studyExt_refl s⟩
    · split
      · exact ⟨s, by simpa using h, studyExt_refl s⟩
      · refine indexFailure_studies_ext _ _ _ _ _ _ _ _ ?_
        simpa using h

theorem successInsert_series_ext (st2 : DicomState) (ds : Dataset)
    (slice_id fn fp : String) (fi : FolderInfo) (su se k : String) (s : Series)
    (h : mapGet st2.series k = some s) :
    ∃ s', mapGet (successInsert st2 ds slice_id fn fp fi su se).series k
      = some s' ∧ SeriesExt s s' := by
  unfold successInsert
  dsimp only
  split
  · exact ⟨s, by simpa using h, seriesExt_refl s⟩
  · split
    · exact ⟨s, by simpa using h, seriesExt_refl s⟩
    · rename_i s0 hs0
      rw [withSlices_series] at hs0
      split
      · rename_i sortedIds hsort
        simp only [withSeries_slices, withSlices_slices] at hsort
        by_cases hk : k = se
        · subst hk
          have hs0' : s0 = s := by
            rw [h] at hs0
            exact (Option.some_inj.mp hs0).symm
          subst hs0'
          refine ⟨{ s0 with slice_ids := sortedIds }, ?_, ?_⟩
          · simp only [withSeries_series]
            rw [mapGet_mapSet_self]
          · refine ⟨rfl, rfl, rfl, rfl, rfl, [slice_id], ?_⟩
            unfold sortSliceIds at hsort
            cases hkl : keyedList
                (mapSet st2.slices slice_id
                  (succRec st2 ds slice_id fn fp su k))
                (s0.slice_ids ++ [slice_id]) with
            | none => rw [hkl] at hsort; cases hsort
            | some ps =>
              rw [hkl] at hsort
              simp only [Option.some_inj] at hsort
              rw [← hsort]
              have hp : (List.insertionSort keyRel ps).map (fun p => p.1)
                  |>.Perm (ps.map (fun p => p.1)) :=
                (List.perm_insertionSort keyRel ps).map _
              rw [keyedList_some_map_fst _ _ _ hkl] at hp
              exact hp
        · refine ⟨s, ?_, seriesExt_refl s⟩
          simp only [withSeries_series]
          rw [mapGet_mapSet_ne _ _ _ _ hk, mapGet_mapSet_ne _ _ _ _ hk]
          exact h
      · rename_i hsort
        by_cases hk : k = se
        · subst hk
          have hs0' : s0 = s := by
            rw [h] at hs0
            exact (Option.some_inj.mp hs0).symm
          subst hs0'
          have h4 : mapGet
              (withSeries
                (withSlices st2
                  (mapSet st2.slices slice_id
                    (succRec st2 ds slice_id fn fp su k)))
                (mapSet st2.series k
                  { s0 with slice_ids := s0.slice_ids ++ [slice_id] })).series k
              = some { s0 with slice_ids := s0.slice_ids ++ [slice_id] } := by
            rw [withSeries_series, mapGet_mapSet_self]
          obtain ⟨s', hs', hext⟩ :=
            indexFailure_series_ext _ slice_id fn fp "KeyError: slice_location"
              fi k _ h4
          refine ⟨s', hs', seriesExt_trans ?_ hext⟩
          exact ⟨rfl, rfl, rfl, rfl, rfl, [slice_id], List.Perm.refl _⟩
        · have h4 : mapGet
              (withSeries
                (withSlices st2
                  (mapSet st2.slices slice_id
                    (succRec st2 ds slice_id fn fp su se)))
                (mapSet st2.series se
                  { s0 with slice_ids := s0.slice_ids ++ [slice_id] })).series k
              = some s := by
            rw [withSeries_series, mapGet_mapSet_ne _ _ _ _ hk]
            exact h
          exact indexFailure_series_ext _ slice_id fn fp
            "KeyError: slice_location" fi k s h4

/-- C8: once a Study or Series record exists, no later resolve changes its
identity or descriptive fields; its membership list only grows — the study's
by literal append, the series' by append-then-stable-resort, captured as a
permutation of the old list plus new ids. -/
theorem C8_first_writer_wins (st : DicomState) (parse : Option Dataset)
    (slice_id fn fp errMsg : String) (fi : FolderInfo) :
    (∀ k s, mapGet st.studies k = some s →
      ∃ s', mapGet (indexDicomFile st parse slice_id fn fp fi errMsg).studies k
        = some s' ∧ StudyExt s s') ∧
    (∀ k s, mapGet st.series k = some s →
      ∃ s', mapGet (indexDicomFile st parse slice_id fn fp fi errMsg).series k
        = some s' ∧ SeriesExt s s') := by
  cases parse with
  | none =>
    exact ⟨fun k s h => indexFailure_studies_ext st slice_id fn fp errMsg fi k s h,
      fun k s h => indexFailure_series_ext st slice_id fn fp errMsg fi k s h⟩
  | some ds =>
    constructor
    · intro k s h
      obtain ⟨s1, h1, e1⟩ := ensuredSuccess_studies_ext st ds fi
        (uidOr ds.studyInstanceUID ("study_" ++ fi.patient_folder))
        (uidOr ds.seriesInstanceUID ("series_" ++ fi.subfolder)) k s h
      obtain ⟨s2, h2, e2⟩ := successInsert_studies_ext _ ds slice_id fn fp fi
        (uidOr ds.studyInstanceUID ("study_" ++ fi.patient_folder))
        (uidOr ds.seriesInstanceUID ("series_" ++ fi.subfolder)) k s1 h1
      exact ⟨s2, h2, studyExt_trans e1 e2⟩
    · intro k s h
      have h1 := ensuredSuccess_series_pres st ds fi
        (uidOr ds.studyInstanceUID ("study_" ++ fi.patient_folder))
        (uidOr ds.seriesInstanceUID ("series_" ++ fi.subfolder)) k s h
      obtain ⟨s2, h2, e2⟩ := successInsert_series_ext _ ds slice_id fn fp fi
        (uidOr ds.studyInstanceUID ("study_" ++ fi.patient_folder))
        (uidOr ds.seriesInstanceUID ("series_" ++ fi.subfolder)) k s h1
      exact ⟨s2, h2, e2⟩

/-- C8 witness: a later failing resolve into the same series leaves the
existing study record's fields intact. -/
theorem C8_witness :
    ∃ s', mapGet (indexDicomFile mixedState1 none "B" "d.dcm" "B.dcm"
        abFolder "boom").studies "study_a" = some s' ∧
      StudyExt
        { mkStudySuccess instFiveDs abFolder "study_a" with
          series_ids := ["series_b"] } s' :=
  (C8_first_writer_wins mixedState1 none "B" "d.dcm" "B.dcm" "boom"
    abFolder).1 "study_a"
    { mkStudySuccess instFiveDs abFolder "study_a" with
      series_ids := ["series_b"] }
    (by decide)

/-! ## Claim theorems: insert/fetch round trip (C9) -/

theorem get_slices_eq (st : DicomState) (uid : String) :
    get_slices_for_series st uid =
      (seriesSliceIds st uid).filterMap (fun sid => mapGet st.slices sid) := by
  unfold get_slices_for_series seriesSliceIds
  cases mapGet st.series uid <;> simp

/-- In the fetched sequence, the number of entries whose `id` equals the
fresh slice id equals the number of occurrences of that id in the
membership list, as long as the index maps that id to a record carrying it
and maps every other id to records that do not. -/
theorem length_filter_filterMap (sl : List (String × SliceRec))
    (ids : List String) (slice_id : String) (r : SliceRec)
    (hr : mapGet sl slice_id = some r) (hrid : r.id = slice_id)
    (hothers : ∀ x, x ≠ slice_id → ∀ r', mapGet sl x = some r' →
      r'.id ≠ slice_id) :
    ((ids.filterMap (fun sid => mapGet sl sid)).filter
      (fun x => x.id == slice_id)).length = ids.count slice_id := by
  induction ids with
  | nil => rfl
  | cons x t ih =>
    by_cases hx : x = slice_id
    · subst hx
      simp only [List.filterMap_cons, hr, List.filter_cons, hrid,
        beq_self_eq_true, if_true, List.length_cons, List.count_cons_self]
      rw [ih]
    · cases hgx : mapGet sl x with
      | none =>
        simp only [List.filterMap_cons, hgx]
        rw [ih, List.count_cons]
        have : (x == slice_id) = false := beq_eq_false_iff_ne.mpr hx
        simp [this]
      | some r' =>
        have hne : r'.id ≠ slice_id := hothers x hx r' hgx
        simp only [List.filterMap_cons, hgx, List.filter_cons]
        have h1 : (r'.id == slice_id) = false := beq_eq_false_iff_ne.mpr hne
        have h2 : (x == slice_id) = false := beq_eq_false_iff_ne.mpr hx
        rw [List.count_cons]
        simp [h1, h2, ih]

theorem successInsert_slices_ne (st2 : DicomState) (ds : Dataset)
    (slice_id fn fp : String) (fi : FolderInfo) (su se x : String)
    (hx : x ≠ slice_id) :
    mapGet (successInsert st2 ds slice_id fn fp fi su se).slices x =
      mapGet st2.slices x := by
  unfold successInsert
  dsimp only
  split
  · simp [mapGet_mapSet_ne _ _ _ _ hx]
  · split
    · simp [mapGet_mapSet_ne _ _ _ _ hx]
    · split
      · simp [mapGet_mapSet_ne _ _ _ _ hx]
      · rw [indexFailure_slices_ne _ _ _ _ _ _ x hx]
        simp [mapGet_mapSet_ne _ _ _ _ hx]

theorem indexDicomFile_slices_ne (st : DicomState) (parse : Option Dataset)
    (slice_id fn fp errMsg : String) (fi : FolderInfo) (x : String)
    (hx : x ≠ slice_id) :
    mapGet (indexDicomFile st parse slice_id fn fp fi errMsg).slices x =
      mapGet st.slices x := by
  cases parse with
  | none => exact indexFailure_slices_ne st slice_id fn fp errMsg fi x hx
  | some ds =>
    rw [show indexDicomFile st (some ds) slice_id fn fp fi errMsg =
      indexSuccess st ds slice_id fn fp fi from rfl]
    rw [indexSuccess_unfold, successInsert_slices_ne _ _ _ _ _ _ _ _ _ hx,
      ensuredSuccess_slices]

/-- C9 core, at the `_index_dicom_file` level: a freshly minted slice id
resolves to a record carrying the declared filename, and the slices fetched
for that record's series contain exactly one entry with that id — the
record itself. -/
theorem C9_core (st : DicomState) (parse : Option Dataset)
    (slice_id fn fp errMsg : String) (fi : FolderInfo)
    (hid : ∀ x r', mapGet st.slices x = some r' → r'.id = x)
    (hfresh : ∀ uid, slice_id ∉ seriesSliceIds st uid) :
    ∃ r, mapGet (indexDicomFile st parse slice_id fn fp fi errMsg).slices
        slice_id = some r ∧
      r.filename = fn ∧
      ((get_slices_for_series (indexDicomFile st parse slice_id fn fp fi errMsg)
          r.series_id).filter (fun x => x.id == slice_id)).length = 1 ∧
      r ∈ get_slices_for_series (indexDicomFile st parse slice_id fn fp fi errMsg)
        r.series_id := by
  have hothers : ∀ x, x ≠ slice_id → ∀ r',
      mapGet (indexDicomFile st parse slice_id fn fp fi errMsg).slices x
        = some r' → r'.id ≠ slice_id := by
    intro x hx r' hr'
    rw [indexDicomFile_slices_ne st parse slice_id fn fp errMsg fi x hx] at hr'
    rw [hid x r' hr']
    exact hx
  have hcount : ∃ r, mapGet (indexDicomFile st parse slice_id fn fp fi
        errMsg).slices slice_id = some r ∧ r.filename = fn ∧ r.id = slice_id ∧
      List.count slice_id
        (seriesSliceIds (indexDicomFile st parse slice_id fn fp fi errMsg)
          r.series_id) = 1 := by
    cases parse with
    | none =>
      rw [show indexDicomFile st none slice_id fn fp fi errMsg =
        indexFailure st slice_id fn fp errMsg fi from rfl]
      obtain ⟨r, hr, hrid, hser, _, _, hfn, _, _⟩ :=
        indexFailure_slices_self st slice_id fn fp errMsg fi
      refine ⟨r, hr, hfn, hrid, ?_⟩
      rw [hser, indexFailure_sliceIds_self,
        if_neg (hfresh ("series_" ++ fi.subfolder))]
      rw [List.count_append,
        List.count_eq_zero.mpr (hfresh ("series_" ++ fi.subfolder))]
      simp
    | some ds =>
      rw [show indexDicomFile st (some ds) slice_id fn fp fi errMsg =
        indexSuccess st ds slice_id fn fp fi from rfl]
      set su := uidOr ds.studyInstanceUID ("study_" ++ fi.patient_folder)
        with hsu
      set se := uidOr ds.seriesInstanceUID ("series_" ++ fi.subfolder)
        with hsev
      set E := ensuredSuccess st ds fi su se with hE
      obtain ⟨s, hs⟩ := Option.isSome_iff_exists.mp
        (ensuredSuccess_series_isSome st ds fi su se)
      have h2 : seriesSliceIds E se = s.slice_ids := by
        unfold seriesSliceIds
        rw [hs]
      have hsl : s.slice_ids = seriesSliceIds st se :=
        h2.symm.trans (ensuredSuccess_sliceIds st ds fi su se se)
      have hfresh' : slice_id ∉ s.slice_ids := by
        rw [hsl]; exact hfresh se
      have hcount0 : List.count slice_id s.slice_ids = 0 := by
        rw [hsl]
        exact List.count_eq_zero.mpr (hfresh se)
      rw [indexSuccess_unfold, ← hsu, ← hsev, ← hE]
      rw [successInsert_eq E ds slice_id fn fp fi su se s hs hfresh']
      set SL := mapSet E.slices slice_id (succRec E ds slice_id fn fp su se)
        with hSL
      cases hsort : sortSliceIds SL (s.slice_ids ++ [slice_id]) with
      | some sortedIds =>
        dsimp only
        refine ⟨succRec E ds slice_id fn fp su se, ?_, rfl, rfl, ?_⟩
        · simp only [withSeries_slices, withSlices_slices]
          rw [hSL, mapGet_mapSet_self]
        · have hser : (succRec E ds slice_id fn fp su se).series_id = se := rfl
          rw [hser]
          have hlist : seriesSliceIds
              (withSeries (withSlices E SL)
                (mapSet (mapSet E.series se
                    { s with slice_ids := s.slice_ids ++ [slice_id] })
                  se { s with slice_ids := sortedIds })) se = sortedIds := by
            unfold seriesSliceIds
            rw [withSeries_series, mapGet_mapSet_self]
          rw [hlist]
          have hperm : sortedIds.Perm (s.slice_ids ++ [slice_id]) := by
            unfold sortSliceIds at hsort
            cases hkl : keyedList SL (s.slice_ids ++ [slice_id]) with
            | none => rw [hkl] at hsort; cases hsort
            | some ps =>
              rw [hkl] at hsort
              simp only [Option.some_inj] at hsort
              rw [← hsort]
              have hp := (List.perm_insertionSort keyRel ps).map
                (fun p => p.1)
              rw [keyedList_some_map_fst _ _ _ hkl] at hp
              exact hp
          rw [hperm.count_eq slice_id, List.count_append, hcount0]
          simp
      | none =>
        dsimp only
        obtain ⟨r, hr, hrid, hser, _, _, hfn, _, _⟩ :=
          indexFailure_slices_self
            (withSeries (withSlices E SL)
              (mapSet E.series se
                { s with slice_ids := s.slice_ids ++ [slice_id] }))
            slice_id fn fp "KeyError: slice_location" fi
        refine ⟨r, hr, hfn, hrid, ?_⟩
        rw [hser]
        by_cases hseq : se = "series_" ++ fi.subfolder
        · have hst4 : seriesSliceIds
              (withSeries (withSlices E SL)
                (mapSet E.series se
                  { s with slice_ids := s.slice_ids ++ [slice_id] }))
              ("series_" ++ fi.subfolder) = s.slice_ids ++ [slice_id] := by
            unfold seriesSliceIds
            rw [withSeries_series, ← hseq, mapGet_mapSet_self]
          rw [indexFailure_sliceIds_self, hst4,
            if_pos (List.mem_append_right _ (List.mem_singleton_self _))]
          rw [List.count_append, hcount0]
          simp
        · have hst4 : seriesSliceIds
              (withSeries (withSlices E SL)
                (mapSet E.series se
                  { s with slice_ids := s.slice_ids ++ [slice_id] }))
              ("series_" ++ fi.subfolder) =
              seriesSliceIds st ("series_" ++ fi.subfolder) := by
            unfold seriesSliceIds
            rw [withSeries_series,
              mapGet_mapSet_ne _ _ _ _ (fun h => hseq h.symm)]
            have := ensuredSuccess_sliceIds st ds fi su se
              ("series_" ++ fi.subfolder)
            unfold seriesSliceIds at this
            exact this
          rw [indexFailure_sliceIds_self, hst4,
            if_neg (hfresh ("series_" ++ fi.subfolder))]
          rw [List.count_append,
            List.count_eq_zero.mpr (hfresh ("series_" ++ fi.subfolder))]
          simp
  obtain ⟨r, hr, hfn, hrid, hcnt⟩ := hcount
  refine ⟨r, hr, hfn, ?_, ?_⟩
  · rw [get_slices_eq]
    rw [length_filter_filterMap _ _ slice_id r hr hrid hothers]
    exact hcnt
  · rw [get_slices_eq]
    refine List.mem_filterMap.mpr ⟨slice_id, ?_, hr⟩
    rw [← List.count_pos_iff, hcnt]
    exact Nat.one_pos

/-- C9: after `save_uploaded_file` returns the slice identifier, fetching
that slice's series via `get_slices_for_series` yields a sequence in which
the slice appears exactly once, carrying the declared filename. -/
theorem C9_roundtrip (st : DicomState) (parse : Option Dataset)
    (slice_id fn errMsg : String) (rp : Option String)
    (hid : ∀ x r', mapGet st.slices x = some r' → r'.id = x)
    (hfresh : ∀ uid, slice_id ∉ seriesSliceIds st uid) :
    (saveUploadedFile st parse slice_id fn rp errMsg).2 = slice_id ∧
    ∃ r, mapGet (saveUploadedFile st parse slice_id fn rp errMsg).1.slices
        slice_id = some r ∧
      r.filename = fn ∧
      ((get_slices_for_series (saveUploadedFile st parse slice_id fn rp errMsg).1
          r.series_id).filter (fun x => x.id == slice_id)).length = 1 ∧
      r ∈ get_slices_for_series (saveUploadedFile st parse slice_id fn rp
        errMsg).1 r.series_id :=
  ⟨rfl, C9_core st parse slice_id fn (slice_id ++ ".dcm") errMsg
    (parse_folder_structure (orS ((rp).getD "") fn)) hid hfresh⟩

/-- C9 witness: the first upload into an empty index round-trips. -/
theorem C9_witness :
    ∃ r, mapGet (saveUploadedFile emptyState (some instFiveDs) "A" "c.dcm"
        (some "a/b/c.dcm") "e").1.slices "A" = some r ∧
      r.filename = "c.dcm" ∧
      ((get_slices_for_series
          (saveUploadedFile emptyState (some instFiveDs) "A" "c.dcm"
            (some "a/b/c.dcm") "e").1 r.series_id).filter
        (fun x => x.id == "A")).length = 1 ∧
      r ∈ get_slices_for_series
        (saveUploadedFile emptyState (some instFiveDs) "A" "c.dcm"
          (some "a/b/c.dcm") "e").1 r.series_id :=
  (C9_roundtrip emptyState (some instFiveDs) "A" "c.dcm" "e"
    (some "a/b/c.dcm") (by intro x r' h; cases h)
    (by intro uid; simp [seriesSliceIds, emptyState, mapGet])).2

end DicomAI
